import Mathlib

/-!
# vore: favicon discovery, fetch guard and cache

A shallow embedding of `favicon/favicon.go` and of `discoverFeeds` from `site.go`.

* Go strings are modelled by `String`; the `strings` predicates used by the code
  (`HasPrefix`, `HasSuffix`, `Contains`) are defined on character lists.
* Go maps are modelled by association lists with unique keys (`GoMap`).
* `html.Node` is a tree whose children hang off `FirstChild` / `NextSibling`.
* Everything the code takes from outside of the repository and that is not a
  pure string function is a field of `Env`: `net/url`, `strings.ToLower`,
  `html.Parse` and the HTTP round trip.  The HTTP client carries an explicit
  state, so that two requests for one URL may be answered differently.
* `encoding/base64`'s `StdEncoding` is modelled following RFC 4648.
-/

namespace Vore

/-! ## Strings and bytes -/

abbrev Byte := Fin 256

/-- Go `strings.HasPrefix s pre`. -/
def stringsHasPrefix (s pre : String) : Bool := pre.data.isPrefixOf s.data

/-- Go `strings.HasSuffix s suf`. -/
def stringsHasSuffix (s suf : String) : Bool := suf.data.isSuffixOf s.data

/-- Substring test on character lists: does `sub` occur at some position. -/
def containsChars (sub : List Char) : List Char → Bool
  | [] => sub.isEmpty
  | c :: cs => sub.isPrefixOf (c :: cs) || containsChars sub cs

/-- Go `strings.Contains s sub`. -/
def stringsContains (s sub : String) : Bool := containsChars sub.data s.data

/-! ## Go maps -/

/-- A Go `map[string]V`: an association list in which every key occurs once. -/
structure GoMap (V : Type) where
  entries : List (String × V)
  deriving DecidableEq

/-- Replace the value stored under `k`, or add the pair when `k` is new. -/
def setEntry {V : Type} (k : String) (v : V) : List (String × V) → List (String × V)
  | [] => [(k, v)]
  | (k0, v0) :: rest => if k0 = k then (k0, v) :: rest else (k0, v0) :: setEntry k v rest

/-- Value stored under `k` in an entry list. -/
def lookupEntry {V : Type} (k : String) : List (String × V) → Option V
  | [] => none
  | (k0, v0) :: rest => if k0 = k then some v0 else lookupEntry k rest

namespace GoMap

/-- Go `make(map[string]V)`. -/
def empty {V : Type} : GoMap V := ⟨[]⟩

/-- Go `m[k] = v`. -/
def set {V : Type} (m : GoMap V) (k : String) (v : V) : GoMap V := ⟨setEntry k v m.entries⟩

/-- Go `v, ok := m[k]`. -/
def lookup {V : Type} (m : GoMap V) (k : String) : Option V := lookupEntry k m.entries

/-- The keys of the map, each once. -/
def keys {V : Type} (m : GoMap V) : List String := m.entries.map Prod.fst

/-- One run of `for k := range m`: every key is visited exactly once, in an
order that Go leaves unspecified. -/
def RangeKeys {V : Type} (m : GoMap V) (visited : List String) : Prop :=
  visited.Perm m.keys

instance {V : Type} (m : GoMap V) (visited : List String) : Decidable (m.RangeKeys visited) := by
  unfold RangeKeys; infer_instance

end GoMap

/-! ## HTML trees -/

/-- The `html.NodeType` constants. -/
inductive NodeType where
  | ErrorNode | TextNode | DocumentNode | ElementNode | CommentNode | DoctypeNode | RawNode
  deriving DecidableEq, Repr

/-- An `html.Attribute` (the namespace field is never read by the code). -/
structure Attribute where
  Key : String
  Val : String
  deriving DecidableEq, Repr

mutual
/-- An `html.Node`: its `Type`, `Data`, `Attr` and the chain starting at `FirstChild`. -/
inductive Node where
  | mk (type : NodeType) (data : String) (attr : List Attribute) (firstChild : NodePtr) : Node
/-- A `*html.Node` used as a sibling chain: `nil`, or a node and its `NextSibling`. -/
inductive NodePtr where
  | nil : NodePtr
  | node (n : Node) (nextSibling : NodePtr) : NodePtr
end

/-! ## HTTP -/

/-- A response body as a stream: the bytes it delivers before it ends, whether it ends
with a read error instead of EOF, and, when it does, whether the reader returns that
error from the same `Read` call that delivers the last bytes (`errWithLast`) or from
the call after it.  Go's `io.Reader` contract allows both. -/
structure Body where
  bytes : List Byte
  err : Bool
  errWithLast : Bool
  deriving DecidableEq

/-- The parts of an `http.Response` the code reads.  `contentType` is the value of
`resp.Header.Get("Content-Type")`, which is the empty string when the header is absent. -/
structure Response where
  StatusCode : Int
  contentType : String
  body : Body
  deriving DecidableEq

/-- Go `io.ReadAll(io.LimitReader(body, n))`: the data read and whether an error was
returned.  `LimitedReader.Read` hands on what the underlying `Read` returns and answers
EOF itself once `n` bytes were delivered.  So the error that ends the stream is seen
when the stream ends before the limit, and also when it ends exactly at the limit and
the reader returns the error together with the last bytes; it is never seen when the
bytes that reach the limit come without it. -/
def readAllLimit (body : Body) (n : Nat) : List Byte × Bool :=
  (body.bytes.take n,
    body.err && (decide (body.bytes.length < n) ||
      (decide (body.bytes.length = n) && body.errWithLast)))

/-- What the code uses from outside the repository. -/
structure Env (URL σ : Type) where
  /-- Go `url.Parse`; `none` is a parse error. -/
  urlParse : String → Option URL
  /-- Go `(*url.URL).Hostname`. -/
  hostname : URL → String
  /-- Go `(*url.URL).Parse`: resolve a reference against a base. -/
  parseRef : URL → String → Option URL
  /-- Go `(*url.URL).String`. -/
  urlString : URL → String
  /-- Go `strings.ToLower`. -/
  toLower : String → String
  /-- Go `html.Parse` on a response body. -/
  htmlParse : Body → Option Node
  /-- One `client.Do` for a GET of the URL: the response (`none` is an error) and the
  next state of the client and of the world behind it. -/
  roundTrip : σ → String → Option Response × σ

/-! ## base64.StdEncoding -/

/-- Alphabet of `base64.StdEncoding` (RFC 4648, section 4). -/
def encodeStd : List Char :=
  "ABCDEFGHIJKLMNOPQRSTUVWXYZabcdefghijklmnopqrstuvwxyz0123456789+/".data

/-- The table lookup `enc.encode[i & 0x3F]`. -/
def encChar (i : Nat) : Char := encodeStd.getD (i % 64) 'A'

/-- The table lookup `enc.decodeMap[c]`: the position of `c` in the alphabet, if any. -/
def decChar (c : Char) : Option Nat :=
  let i := encodeStd.indexOf c
  if i < 64 then some i else none

/-- Truncating conversion `byte(v)`. -/
def toByte (v : Nat) : Byte := ⟨v % 256, Nat.mod_lt v (by decide)⟩

/-- The encoder: three bytes make four characters, a final group of one or two
bytes is padded with `=`. -/
def encodeChars : List Byte → List Char
  | a :: b :: c :: rest =>
    let val := a.val * 65536 + b.val * 256 + c.val
    encChar (val / 262144) :: encChar (val / 4096) :: encChar (val / 64) :: encChar val ::
      encodeChars rest
  | [a, b] =>
    let val := a.val * 65536 + b.val * 256
    [encChar (val / 262144), encChar (val / 4096), encChar (val / 64), '=']
  | [a] =>
    let val := a.val * 65536
    [encChar (val / 262144), encChar (val / 4096), '=', '=']
  | [] => []

/-- The decoder on whole quanta; padding is accepted in the last quantum only. -/
def decodeChars : List Char → Option (List Byte)
  | [] => some []
  | c0 :: c1 :: c2 :: c3 :: rest =>
    if c3 = '=' then
      if rest ≠ [] then none
      else if c2 = '=' then
        match decChar c0, decChar c1 with
        | some v0, some v1 => some [toByte ((v0 * 262144 + v1 * 4096) / 65536)]
        | _, _ => none
      else
        match decChar c0, decChar c1, decChar c2 with
        | some v0, some v1, some v2 =>
          let val := v0 * 262144 + v1 * 4096 + v2 * 64
          some [toByte (val / 65536), toByte (val / 256)]
        | _, _, _ => none
    else
      match decChar c0, decChar c1, decChar c2, decChar c3 with
      | some v0, some v1, some v2, some v3 =>
        let val := v0 * 262144 + v1 * 4096 + v2 * 64 + v3
        match decodeChars rest with
        | some out => some (toByte (val / 65536) :: toByte (val / 256) :: toByte val :: out)
        | none => none
      | _, _, _, _ => none
  | _ => none

/-- Go `base64.StdEncoding.EncodeToString`. -/
def EncodeToString (src : List Byte) : String := String.mk (encodeChars src)

/-- Go `base64.StdEncoding.DecodeString`; carriage returns and line feeds are skipped. -/
def DecodeString (s : String) : Option (List Byte) :=
  decodeChars (s.data.filter (fun c => c ≠ '\r' ∧ c ≠ '\n'))

/-! ## The fetcher -/

/-- The struct `FaviconCache`: domain names to data URLs (the mutex has no state). -/
structure FaviconCache where
  cache : GoMap String
  deriving DecidableEq

/-- The struct `FaviconFetcher`.  `client` is the state of the HTTP client and of the
servers it talks to; `sent` records the URLs handed to `client.Do`, oldest first. -/
structure FaviconFetcher (σ : Type) where
  cache : FaviconCache
  client : σ
  sent : List String
  deriving DecidableEq

/-- The constructor `NewFaviconFetcher`, on a client in state `s`. -/
def NewFaviconFetcher {σ : Type} (s : σ) : FaviconFetcher σ :=
  { cache := { cache := GoMap.empty }, client := s, sent := [] }

/-- The method `GetFaviconDataURL`: `f.cache.cache[domain]`, the empty string when absent. -/
def GetFaviconDataURL {σ : Type} (f : FaviconFetcher σ) (domain : String) : String :=
  (f.cache.cache.lookup domain).getD ""

/-- The call `f.client.Do(req)`. -/
def clientDo {URL σ : Type} (E : Env URL σ) (f : FaviconFetcher σ) (url : String) :
    Option Response × FaviconFetcher σ :=
  ((E.roundTrip f.client url).1,
    { f with client := (E.roundTrip f.client url).2, sent := f.sent ++ [url] })

/-- The map built by the first loop of `extractUniqueDomains`. -/
def domainSet {URL σ : Type} (E : Env URL σ) : List String → GoMap Bool → GoMap Bool
  | [], m => m
  | rawURL :: urls, m =>
    match E.urlParse rawURL with
    | none => domainSet E urls m
    | some parsedURL =>
      let domain := E.hostname parsedURL
      if domain ≠ "" then domainSet E urls (m.set domain true) else domainSet E urls m

/-- The method `extractUniqueDomains`: `domains` is a possible return value for `urls`
(the second loop ranges over the map). -/
def extractUniqueDomains {URL σ : Type} (E : Env URL σ) (urls : List String)
    (domains : List String) : Prop :=
  (domainSet E urls GoMap.empty).RangeKeys domains

instance {URL σ : Type} (E : Env URL σ) (urls domains : List String) :
    Decidable (extractUniqueDomains E urls domains) := by
  unfold extractUniqueDomains; infer_instance

/-- The method `isFaviconRel`. -/
def isFaviconRel (rel : String) : Bool :=
  let faviconRels :=
    ["icon", "shortcut icon", "apple-touch-icon", "apple-touch-icon-precomposed", "mask-icon"]
  if faviconRels.contains rel then true else false

/-- The method `isLargerIcon`. -/
def isLargerIcon (sizes : String) : Bool :=
  stringsContains sizes "32x32" || stringsContains sizes "64x64" ||
    stringsContains sizes "128x128" || stringsContains sizes "192x192"

/-- The attribute loop of `walkHTML`: the values of `rel`, `href`, `sizes`. -/
def linkAttrs (toLower : String → String) :
    List Attribute → String × String × String → String × String × String
  | [], acc => acc
  | attr :: rest, (rel, href, sizes) =>
    if attr.Key = "rel" then linkAttrs toLower rest (toLower attr.Val, href, sizes)
    else if attr.Key = "href" then linkAttrs toLower rest (rel, attr.Val, sizes)
    else if attr.Key = "sizes" then linkAttrs toLower rest (rel, href, attr.Val)
    else linkAttrs toLower rest (rel, href, sizes)

/-- The body of `walkHTML` for one `link` element with attributes `attr`. -/
def visitLink {URL σ : Type} (E : Env URL σ) (baseURL : URL) (attr : List Attribute)
    (faviconURLs : List String) : List String :=
  match linkAttrs E.toLower attr ("", "", "") with
  | (rel, href, sizes) =>
    if isFaviconRel rel && href ≠ "" then
      match E.parseRef baseURL href with
      | some faviconURL =>
        if isLargerIcon sizes then [E.urlString faviconURL] ++ faviconURLs
        else faviconURLs ++ [E.urlString faviconURL]
      | none => faviconURLs
    else faviconURLs

mutual
/-- The closure `walkHTML`, with the captured slice `faviconURLs` passed through. -/
def walkHTML {URL σ : Type} (E : Env URL σ) (baseURL : URL) : Node → List String → List String
  | .mk type data attr firstChild, faviconURLs =>
    walkChildren E baseURL firstChild
      (if type = NodeType.ElementNode ∧ data = "link" then visitLink E baseURL attr faviconURLs
       else faviconURLs)
/-- The loop `for c := n.FirstChild; c != nil; c = c.NextSibling`. -/
def walkChildren {URL σ : Type} (E : Env URL σ) (baseURL : URL) :
    NodePtr → List String → List String
  | .nil, faviconURLs => faviconURLs
  | .node c nextSibling, faviconURLs =>
    walkChildren E baseURL nextSibling (walkHTML E baseURL c faviconURLs)
end

/-- The method `extractFaviconURLsFromHTML`. -/
def extractFaviconURLsFromHTML {URL σ : Type} (E : Env URL σ) (doc : Node) (baseURL : URL) :
    List String :=
  walkHTML E baseURL doc []

/-- The method `discoverFaviconFromHTML`. -/
def discoverFaviconFromHTML {URL σ : Type} (E : Env URL σ) (f : FaviconFetcher σ)
    (baseURL : String) : List String × FaviconFetcher σ :=
  match E.urlParse baseURL with
  | none => ([], f)
  | some _ =>
    match (clientDo E f baseURL).1 with
    | none => ([], (clientDo E f baseURL).2)
    | some resp =>
      if resp.StatusCode < 200 ∨ resp.StatusCode ≥ 300 then ([], (clientDo E f baseURL).2)
      else
        match E.htmlParse resp.body with
        | none => ([], (clientDo E f baseURL).2)
        | some doc =>
          match E.urlParse baseURL with
          | none => ([], (clientDo E f baseURL).2)
          | some parsedBaseURL =>
            (extractFaviconURLsFromHTML E doc parsedBaseURL, (clientDo E f baseURL).2)

/-- The constant `maxFaviconSize`. -/
def maxFaviconSize : Nat := 1024 * 1024

/-- The content type used in the data URL (the `if contentType == ""` block). -/
def resolveContentType (contentType faviconURL : String) : String :=
  if contentType = "" then
    if stringsHasSuffix faviconURL ".png" then "image/png"
    else if stringsHasSuffix faviconURL ".ico" then "image/x-icon"
    else "image/x-icon"
  else contentType

/-- The part of `fetchFaviconDataURL` that follows a successful `client.Do`. -/
def dataURLOfResponse (faviconURL : String) (resp : Response) : String :=
  if resp.StatusCode < 200 ∨ resp.StatusCode ≥ 300 then ""
  else
    let contentType := resp.contentType
    if contentType ≠ "" ∧ !stringsHasPrefix contentType "image/" ∧
        !stringsContains contentType "icon" ∧ !stringsContains contentType "octet-stream" then ""
    else
      let data := (readAllLimit resp.body maxFaviconSize).1
      if (readAllLimit resp.body maxFaviconSize).2 then ""
      else if data.length = 0 then ""
      else
        let encodedData := EncodeToString data
        "data:" ++ resolveContentType contentType faviconURL ++ ";base64," ++ encodedData

/-- The method `fetchFaviconDataURL`: the returned string and the fetcher afterwards. -/
def fetchFaviconDataURL {URL σ : Type} (E : Env URL σ) (f : FaviconFetcher σ)
    (faviconURL : String) : String × FaviconFetcher σ :=
  match E.urlParse faviconURL with
  | none => ("", f)
  | some _ =>
    match (clientDo E f faviconURL).1 with
    | none => ("", (clientDo E f faviconURL).2)
    | some resp => (dataURLOfResponse faviconURL resp, (clientDo E f faviconURL).2)

/-- The four conventional paths appended to the HTML hints. -/
def fallbackURLs (domain : String) : List String :=
  ["https://" ++ domain ++ "/favicon.ico",
   "https://" ++ domain ++ "/favicon.png",
   "https://" ++ domain ++ "/apple-touch-icon.png",
   "https://" ++ domain ++ "/apple-touch-icon-precomposed.png"]

/-- The slice `faviconURLs` of `fetchFaviconForDomain` once the fallbacks are appended. -/
def faviconCandidates {URL σ : Type} (E : Env URL σ) (f : FaviconFetcher σ)
    (domain : String) : List String :=
  (discoverFaviconFromHTML E f ("https://" ++ domain)).1 ++ fallbackURLs domain

/-- The loop `for _, faviconURL := range faviconURLs` of `fetchFaviconForDomain`. -/
def tryCandidates {URL σ : Type} (E : Env URL σ) (domain : String) :
    List String → FaviconFetcher σ → FaviconFetcher σ
  | [], f => f
  | faviconURL :: rest, f =>
    if (fetchFaviconDataURL E f faviconURL).1 ≠ "" then
      { (fetchFaviconDataURL E f faviconURL).2 with
        cache := { cache := (fetchFaviconDataURL E f faviconURL).2.cache.cache.set domain
                    (fetchFaviconDataURL E f faviconURL).1 } }
    else tryCandidates E domain rest (fetchFaviconDataURL E f faviconURL).2

/-- The method `fetchFaviconForDomain`. -/
def fetchFaviconForDomain {URL σ : Type} (E : Env URL σ) (f : FaviconFetcher σ)
    (domain : String) : FaviconFetcher σ :=
  tryCandidates E domain (faviconCandidates E f domain)
    (discoverFaviconFromHTML E f ("https://" ++ domain)).2

/-! ## Statement vocabulary -/

/-- The fetcher reached after `fetchFaviconDataURL` was called on every URL of the
list in order, provided that each of these calls returned the empty string. -/
def afterFailures {URL σ : Type} (E : Env URL σ) :
    List String → FaviconFetcher σ → Option (FaviconFetcher σ)
  | [], f => some f
  | u :: us, f =>
    if (fetchFaviconDataURL E f u).1 = "" then afterFailures E us (fetchFaviconDataURL E f u).2
    else none

/-- HTML discovery for `baseURL` fails: no request can be built, the request errors,
the status is not 2xx, or the page does not parse. -/
def DiscoveryFails {URL σ : Type} (E : Env URL σ) (f : FaviconFetcher σ) (baseURL : String) :
    Prop :=
  E.urlParse baseURL = none ∨ (E.roundTrip f.client baseURL).1 = none ∨
    ∃ resp, (E.roundTrip f.client baseURL).1 = some resp ∧
      (resp.StatusCode < 200 ∨ 299 < resp.StatusCode ∨ E.htmlParse resp.body = none)

/-- The string `s` starts with `pre`. -/
def StartsWith (s pre : String) : Prop := ∃ t : String, s = pre ++ t

/-- The string `s` ends with `suf`. -/
def EndsWith (s suf : String) : Prop := ∃ t : String, s = t ++ suf

/-- The string `sub` occurs in `s`. -/
def HasSubstring (s sub : String) : Prop := ∃ a b : String, s = a ++ sub ++ b

/-- A content type the guard lets through: absent, or an image type, or one that
mentions `icon` or `octet-stream`. -/
def AcceptedContentType (contentType : String) : Prop :=
  contentType = "" ∨ StartsWith contentType "image/" ∨ HasSubstring contentType "icon" ∨
    HasSubstring contentType "octet-stream"

/-- The fetcher after `fetchFaviconForDomain` was called for each domain of the list,
one call after the other. -/
def fetchSequence {URL σ : Type} (E : Env URL σ) :
    List String → FaviconFetcher σ → FaviconFetcher σ
  | [], f => f
  | domain :: rest, f => fetchSequence E rest (fetchFaviconForDomain E f domain)

/-- A well-formed cache value: non-empty, starting with `data:` and containing
`;base64,`. -/
def WellFormedDataURL (v : String) : Prop :=
  v ≠ "" ∧ StartsWith v "data:" ∧ HasSubstring v ";base64,"

/-- Every value stored in the cache is a well-formed data URL. -/
def CacheInvariant (c : FaviconCache) : Prop :=
  ∀ key v, c.cache.lookup key = some v → WellFormedDataURL v

/-! ## A small concrete environment -/

/-- Host of an `https` URL: the characters between `https://` and the next slash. -/
def hostOf (s : String) : String :=
  match s.data with
  | 'h' :: 't' :: 't' :: 'p' :: 's' :: ':' :: '/' :: '/' :: rest =>
    String.mk (rest.takeWhile (fun c => c ≠ '/'))
  | _ => ""

/-- A page with a plain icon link followed by a 32x32 icon link. -/
def demoDoc : Node :=
  .mk .DocumentNode "" []
    (.node (.mk .ElementNode "html" []
      (.node (.mk .ElementNode "head" []
        (.node (.mk .ElementNode "link" [⟨"rel", "icon"⟩, ⟨"href", "/b.png"⟩] .nil)
        (.node (.mk .ElementNode "link"
            [⟨"rel", "ICON"⟩, ⟨"sizes", "32x32"⟩, ⟨"href", "/a.png"⟩] .nil)
        (.node (.mk .ElementNode "meta" [⟨"charset", "utf-8"⟩] .nil) .nil)))) .nil)) .nil)

/-- Answers of the demo server; the state counts the requests served so far. -/
def demoRoundTrip (n : Nat) (url : String) : Option Response × Nat :=
  if url = "https://example.com" then
    (some { StatusCode := 200, contentType := "text/html", body := ⟨[60], false, false⟩ }, n + 1)
  else if url = "https://example.com/a.png" then
    (some { StatusCode := 404, contentType := "text/plain", body := ⟨[], false, false⟩ }, n + 1)
  else if url = "https://example.com/favicon.ico" then
    (some { StatusCode := 200, contentType := "image/x-icon", body := ⟨[toByte n], false, false⟩ },
      n + 1)
  else if url = "https://example.com/favicon.png?v=2" then
    (some { StatusCode := 200, contentType := "", body := ⟨[0, 1, 2], false, false⟩ }, n + 1)
  else (none, n + 1)

/-- A toy environment: URLs are strings, a string with a blank does not parse. -/
def demoEnv : Env String Nat where
  urlParse s := if s.data.contains ' ' then none else some s
  hostname := hostOf
  parseRef base href :=
    if stringsHasPrefix href "https://" then some href
    else if stringsHasPrefix href "/" then some ("https://" ++ hostOf base ++ href)
    else some ("https://" ++ hostOf base ++ "/" ++ href)
  urlString u := u
  toLower s := String.mk (s.data.map Char.toLower)
  htmlParse b := if b.err then none else some demoDoc
  roundTrip := demoRoundTrip

/-- A server that is down: every request errors. -/
def offlineEnv : Env String Nat :=
  { demoEnv with roundTrip := fun n _ => (none, n + 1) }

/-- A body of exactly `maxFaviconSize` zero bytes. -/
def ceilingBody : List Byte := List.replicate maxFaviconSize 0

/-- A body one byte longer than `maxFaviconSize`. -/
def overCeilingBody : List Byte := List.replicate (maxFaviconSize + 1) 0

/-- A server with two large icons: one of exactly 1,048,576 bytes, one a byte longer. -/
def ceilingEnv : Env String Nat :=
  { demoEnv with
    roundTrip := fun n url =>
      if url = "https://example.com/exact.png" then
        (some { StatusCode := 200, contentType := "image/png",
                body := ⟨ceilingBody, false, false⟩ }, n + 1)
      else if url = "https://example.com/over.png" then
        (some { StatusCode := 200, contentType := "image/png",
                body := ⟨overCeilingBody, false, false⟩ }, n + 1)
      else (none, n + 1) }

/-! ## Document order and the icon links of a page -/

mutual
/-- The nodes of a tree in depth-first document order, the root first. -/
def documentOrder : Node → List Node
  | .mk type data attr firstChild => .mk type data attr firstChild :: documentOrderFrom firstChild
/-- The nodes below a sibling chain in depth-first document order. -/
def documentOrderFrom : NodePtr → List Node
  | .nil => []
  | .node n nextSibling => documentOrder n ++ documentOrderFrom nextSibling
end

/-- Value of the last attribute with the given key, if there is one. -/
def lastAttr (key : String) : List Attribute → Option String
  | [] => none
  | a :: rest =>
    match lastAttr key rest with
    | some v => some v
    | none => if a.Key = key then some a.Val else none

/-- The `rel` values that mark an icon link. -/
def iconRels : List String :=
  ["icon", "shortcut icon", "apple-touch-icon", "apple-touch-icon-precomposed", "mask-icon"]

/-- The `sizes` attribute names one of the prioritized sizes. -/
def PrioritizedSizes (sizes : String) : Prop :=
  ∃ s ∈ ["32x32", "64x64", "128x128", "192x192"], stringsContains sizes s = true

instance (sizes : String) : Decidable (PrioritizedSizes sizes) := by
  unfold PrioritizedSizes; infer_instance

/-- The icon link a node stands for, if any: the node is a `link` element whose `rel`,
lower-cased, is an icon rel and whose `href` is present (non-empty) and resolves against
the base; the result is the resolved URL and whether the link is prioritized. -/
def iconLink {URL σ : Type} (E : Env URL σ) (base : URL) : Node → Option (String × Bool)
  | .mk type data attr _ =>
    if type = NodeType.ElementNode ∧ data = "link" ∧
        ((lastAttr "rel" attr).map E.toLower).getD "" ∈ iconRels ∧
        (lastAttr "href" attr).getD "" ≠ "" then
      (E.parseRef base ((lastAttr "href" attr).getD "")).map
        (fun u => (E.urlString u, decide (PrioritizedSizes ((lastAttr "sizes" attr).getD ""))))
    else none

/-- One step of the list construction: prepend a prioritized URL, append any other. -/
def placeLink (acc : List String) (l : String × Bool) : List String :=
  if l.2 then [l.1] ++ acc else acc ++ [l.1]

/-! ## Feed discovery (`site.go`) -/

/-- The attribute loop of `discoverFeeds`: the values of `rel`, `type`, `href`. -/
def feedAttrs : List Attribute → String × String × String → String × String × String
  | [], acc => acc
  | attr :: rest, (rel, typ, href) =>
    if attr.Key = "rel" then feedAttrs rest (attr.Val, typ, href)
    else if attr.Key = "type" then feedAttrs rest (rel, attr.Val, href)
    else if attr.Key = "href" then feedAttrs rest (rel, typ, attr.Val)
    else feedAttrs rest (rel, typ, href)

/-- The body of the closure of `discoverFeeds` for one `link` element. -/
def visitFeedLink {URL σ : Type} (E : Env URL σ) (base : URL) (attr : List Attribute)
    (feeds : List String) : List String :=
  match feedAttrs attr ("", "", "") with
  | (rel, typ, href) =>
    if rel = "alternate" ∧ (typ = "application/rss+xml" ∨ typ = "application/atom+xml") then
      match E.parseRef base href with
      | some u => feeds ++ [E.urlString u]
      | none => feeds
    else feeds

mutual
/-- The closure `f` of `discoverFeeds`, with the captured slice `feeds` passed through. -/
def feedWalk {URL σ : Type} (E : Env URL σ) (base : URL) : Node → List String → List String
  | .mk type data attr firstChild, feeds =>
    feedWalkChildren E base firstChild
      (if type = NodeType.ElementNode ∧ data = "link" then visitFeedLink E base attr feeds
       else feeds)
/-- The loop `for c := n.FirstChild; c != nil; c = c.NextSibling` of the closure. -/
def feedWalkChildren {URL σ : Type} (E : Env URL σ) (base : URL) :
    NodePtr → List String → List String
  | .nil, feeds => feeds
  | .node c nextSibling, feeds =>
    feedWalkChildren E base nextSibling (feedWalk E base c feeds)
end

/-- The function `discoverFeeds`. -/
def discoverFeeds {URL σ : Type} (E : Env URL σ) (doc : Node) (base : URL) : List String :=
  feedWalk E base doc []

/-- The feed link a node stands for, if any: the node is a `link` element whose `rel`
equals `alternate` and whose `type` is one of the two syndication types; the result is
its href resolved against the base, when that resolution succeeds. -/
def feedLink {URL σ : Type} (E : Env URL σ) (base : URL) : Node → Option String
  | .mk type data attr _ =>
    if type = NodeType.ElementNode ∧ data = "link" ∧
        (lastAttr "rel" attr).getD "" = "alternate" ∧
        ((lastAttr "type" attr).getD "" = "application/rss+xml" ∨
          (lastAttr "type" attr).getD "" = "application/atom+xml") then
      (E.parseRef base ((lastAttr "href" attr).getD "")).map E.urlString
    else none

/-- A page whose head announces one RSS feed at `/feed.xml`. -/
def feedDoc : Node :=
  .mk .DocumentNode "" []
    (.node (.mk .ElementNode "html" []
      (.node (.mk .ElementNode "head" []
        (.node (.mk .ElementNode "title" [] (.node (.mk .TextNode "blog" [] .nil) .nil))
        (.node (.mk .ElementNode "link"
            [⟨"rel", "alternate"⟩, ⟨"type", "application/rss+xml"⟩, ⟨"href", "/feed.xml"⟩]
            .nil) .nil)))
      (.node (.mk .ElementNode "body" []
        (.node (.mk .ElementNode "p" [] (.node (.mk .TextNode "hello" [] .nil) .nil))
          .nil)) .nil))) .nil)

/-! ## Basic facts -/

theorem lookupEntry_setEntry_self {V : Type} (k : String) (v : V) :
    ∀ l : List (String × V), lookupEntry k (setEntry k v l) = some v
  | [] => by simp [setEntry, lookupEntry]
  | (k0, v0) :: rest => by
    by_cases h : k0 = k
    · simp [setEntry, lookupEntry, h]
    · simp [setEntry, lookupEntry, h, lookupEntry_setEntry_self k v rest]

theorem lookupEntry_setEntry_ne {V : Type} (k k1 : String) (v : V) (hk : k1 ≠ k) :
    ∀ l : List (String × V), lookupEntry k1 (setEntry k v l) = lookupEntry k1 l
  | [] => by simp [setEntry, lookupEntry, Ne.symm hk]
  | (k0, v0) :: rest => by
    by_cases h : k0 = k
    · subst h
      simp [setEntry, lookupEntry, Ne.symm hk]
    · by_cases h1 : k0 = k1
      · subst h1
        simp [setEntry, lookupEntry, h]
      · simp [setEntry, lookupEntry, h, h1, lookupEntry_setEntry_ne k k1 v hk rest]

theorem GoMap.lookup_set_self {V : Type} (m : GoMap V) (k : String) (v : V) :
    (m.set k v).lookup k = some v :=
  lookupEntry_setEntry_self k v m.entries

theorem GoMap.lookup_set_ne {V : Type} (m : GoMap V) (k k1 : String) (v : V) (hk : k1 ≠ k) :
    (m.set k v).lookup k1 = m.lookup k1 :=
  lookupEntry_setEntry_ne k k1 v hk m.entries

section
variable {URL σ : Type} (E : Env URL σ)

theorem fetchFaviconDataURL_cache (f : FaviconFetcher σ) (u : String) :
    (fetchFaviconDataURL E f u).2.cache = f.cache := by
  unfold fetchFaviconDataURL
  split
  · rfl
  · split <;> rfl

theorem discoverFaviconFromHTML_cache (f : FaviconFetcher σ) (u : String) :
    (discoverFaviconFromHTML E f u).2.cache = f.cache := by
  unfold discoverFaviconFromHTML
  repeat (first | rfl | split)

theorem fetchFaviconDataURL_ok (f : FaviconFetcher σ) (u : String)
    (h : (fetchFaviconDataURL E f u).1 ≠ "") :
    (E.urlParse u).isSome = true ∧ (fetchFaviconDataURL E f u).2 = (clientDo E f u).2 := by
  unfold fetchFaviconDataURL at h ⊢
  split
  · rename_i hp; simp [hp] at h
  · rename_i hp
    refine ⟨by simp [hp], ?_⟩
    split <;> rfl

theorem fetchFaviconDataURL_sent (f : FaviconFetcher σ) (u : String) :
    (fetchFaviconDataURL E f u).2.sent =
      f.sent ++ (if (E.urlParse u).isSome then [u] else []) := by
  unfold fetchFaviconDataURL
  split
  · rename_i hp; simp [hp]
  · rename_i hp
    simp only [hp, Option.isSome_some, if_true]
    split <;> rfl

theorem afterFailures_cache : ∀ (us : List String) (f f1 : FaviconFetcher σ),
    afterFailures E us f = some f1 → f1.cache = f.cache
  | [], f, f1, h => by
    simp only [afterFailures, Option.some.injEq] at h
    rw [← h]
  | u :: us, f, f1, h => by
    simp only [afterFailures] at h
    split at h
    · rw [afterFailures_cache us _ f1 h, fetchFaviconDataURL_cache]
    · cases h

theorem afterFailures_sent : ∀ (us : List String) (f f1 : FaviconFetcher σ),
    afterFailures E us f = some f1 →
      f1.sent = f.sent ++ us.filter (fun u => (E.urlParse u).isSome)
  | [], f, f1, h => by
    simp only [afterFailures, Option.some.injEq] at h
    simp [← h]
  | u :: us, f, f1, h => by
    simp only [afterFailures] at h
    split at h
    · rw [afterFailures_sent us _ f1 h, fetchFaviconDataURL_sent]
      cases hp : (E.urlParse u).isSome <;> simp [List.filter, hp]
    · cases h

theorem tryCandidates_all_fail (domain : String) : ∀ (us : List String) (f f1 : FaviconFetcher σ),
    afterFailures E us f = some f1 → tryCandidates E domain us f = f1
  | [], f, f1, h => by
    simp only [afterFailures, Option.some.injEq] at h
    simp [tryCandidates, h]
  | u :: us, f, f1, h => by
    simp only [afterFailures] at h
    split at h
    · rename_i hu
      simp only [tryCandidates, hu, ne_eq, not_true_eq_false, if_false]
      exact tryCandidates_all_fail domain us _ f1 h
    · cases h

theorem tryCandidates_first_success (domain : String) (c : String) (post : List String) :
    ∀ (pre : List String) (f f1 : FaviconFetcher σ),
    afterFailures E pre f = some f1 → (fetchFaviconDataURL E f1 c).1 ≠ "" →
      tryCandidates E domain (pre ++ c :: post) f =
        { (fetchFaviconDataURL E f1 c).2 with
          cache := { cache := (fetchFaviconDataURL E f1 c).2.cache.cache.set domain
                      (fetchFaviconDataURL E f1 c).1 } }
  | [], f, f1, h, hok => by
    simp only [afterFailures, Option.some.injEq] at h
    subst h
    simp only [List.nil_append, tryCandidates, hok, ne_eq, not_false_eq_true, if_true]
  | u :: us, f, f1, h, hok => by
    simp only [afterFailures] at h
    split at h
    · rename_i hu
      simp only [List.cons_append, tryCandidates, hu, ne_eq, not_true_eq_false, if_false]
      exact tryCandidates_first_success domain c post us _ f1 h hok
    · cases h

end


theorem linkAttrs_eq (toLower : String → String) : ∀ (attr : List Attribute) (rel href sizes : String),
    linkAttrs toLower attr (rel, href, sizes) =
      (((lastAttr "rel" attr).map toLower).getD rel, (lastAttr "href" attr).getD href,
        (lastAttr "sizes" attr).getD sizes)
  | [], rel, href, sizes => by simp [linkAttrs, lastAttr]
  | a :: rest, rel, href, sizes => by
    unfold linkAttrs
    by_cases h1 : a.Key = "rel"
    · rw [if_pos h1, linkAttrs_eq toLower rest]
      simp only [lastAttr, h1]
      cases lastAttr "rel" rest <;> cases lastAttr "href" rest <;>
        cases lastAttr "sizes" rest <;> simp
    · rw [if_neg h1]
      by_cases h2 : a.Key = "href"
      · rw [if_pos h2, linkAttrs_eq toLower rest]
        simp only [lastAttr, h2]
        cases lastAttr "rel" rest <;> cases lastAttr "href" rest <;>
          cases lastAttr "sizes" rest <;> simp
      · rw [if_neg h2]
        by_cases h3 : a.Key = "sizes"
        · rw [if_pos h3, linkAttrs_eq toLower rest]
          simp only [lastAttr, h3]
          cases lastAttr "rel" rest <;> cases lastAttr "href" rest <;>
            cases lastAttr "sizes" rest <;> simp
        · rw [if_neg h3, linkAttrs_eq toLower rest]
          simp only [lastAttr, h1, h2, h3]
          cases lastAttr "rel" rest <;> cases lastAttr "href" rest <;>
            cases lastAttr "sizes" rest <;> simp

theorem isFaviconRel_iff (rel : String) : isFaviconRel rel = true ↔ rel ∈ iconRels := by
  simp [isFaviconRel, iconRels]

theorem isLargerIcon_eq (sizes : String) :
    isLargerIcon sizes = decide (PrioritizedSizes sizes) := by
  simp [isLargerIcon, PrioritizedSizes, Bool.or_assoc]

theorem visitLink_eq {URL σ : Type} (E : Env URL σ) (base : URL) (attr : List Attribute)
    (firstChild : NodePtr) (acc : List String) :
    visitLink E base attr acc =
      ((iconLink E base (.mk .ElementNode "link" attr firstChild)).toList).foldl placeLink acc := by
  unfold visitLink iconLink
  rw [linkAttrs_eq]
  simp only [Bool.and_eq_true, isFaviconRel_iff, decide_eq_true_eq, true_and, isLargerIcon_eq]
  by_cases h : ((lastAttr "rel" attr).map E.toLower).getD "" ∈ iconRels ∧
      (lastAttr "href" attr).getD "" ≠ ""
  · rw [if_pos h, if_pos h]
    cases E.parseRef base ((lastAttr "href" attr).getD "") with
    | none => rfl
    | some u => simp [placeLink]
  · rw [if_neg h, if_neg h]
    rfl

theorem foldl_placeLink_toList_filterMap {α : Type} (g : α → Option (String × Bool)) (a : α)
    (rest : List α) (acc : List String) :
    ((a :: rest).filterMap g).foldl placeLink acc =
      (rest.filterMap g).foldl placeLink ((g a).toList.foldl placeLink acc) := by
  cases h : g a <;> simp [List.filterMap_cons, h]

mutual
theorem walkHTML_eq {URL σ : Type} (E : Env URL σ) (base : URL) :
    ∀ (n : Node) (acc : List String),
      walkHTML E base n acc = ((documentOrder n).filterMap (iconLink E base)).foldl placeLink acc
  | .mk type data attr firstChild, acc => by
    rw [walkHTML, documentOrder, foldl_placeLink_toList_filterMap,
      walkChildren_eq E base firstChild]
    congr 1
    by_cases h : type = NodeType.ElementNode ∧ data = "link"
    · rw [if_pos h]
      obtain ⟨h1, h2⟩ := h
      subst h1
      subst h2
      exact visitLink_eq E base attr firstChild acc
    · rw [if_neg h]
      have hn : iconLink E base (.mk type data attr firstChild) = none := by
        simp only [iconLink]
        rw [if_neg]
        intro hc
        exact h ⟨hc.1, hc.2.1⟩
      rw [hn]
      rfl
theorem walkChildren_eq {URL σ : Type} (E : Env URL σ) (base : URL) :
    ∀ (p : NodePtr) (acc : List String),
      walkChildren E base p acc =
        ((documentOrderFrom p).filterMap (iconLink E base)).foldl placeLink acc
  | .nil, acc => by simp [walkChildren, documentOrderFrom]
  | .node n nextSibling, acc => by
    rw [walkChildren, documentOrderFrom, List.filterMap_append, List.foldl_append,
      walkHTML_eq E base n, walkChildren_eq E base nextSibling]
end

theorem foldl_placeLink : ∀ (links : List (String × Bool)) (acc : List String),
    links.foldl placeLink acc =
      ((links.filter (fun l => l.2)).map Prod.fst).reverse ++ acc ++
        (links.filter (fun l => !l.2)).map Prod.fst
  | [], acc => by simp
  | l :: links, acc => by
    rw [List.foldl_cons, foldl_placeLink links]
    cases h : l.2 <;> simp [placeLink, List.filter_cons, h]

theorem keys_setEntry {V : Type} (k : String) (v : V) : ∀ l : List (String × V),
    (setEntry k v l).map Prod.fst =
      if k ∈ l.map Prod.fst then l.map Prod.fst else l.map Prod.fst ++ [k]
  | [] => by simp [setEntry]
  | (k0, v0) :: rest => by
    by_cases h : k0 = k
    · subst h
      simp [setEntry]
    · have hk : ¬ k = k0 := fun e => h e.symm
      simp only [setEntry, if_neg h, List.map_cons, keys_setEntry k v rest, List.mem_cons, hk,
        false_or]
      split <;> simp

theorem GoMap.mem_keys_set {V : Type} (m : GoMap V) (k : String) (v : V) (d : String) :
    d ∈ (m.set k v).keys ↔ d ∈ m.keys ∨ d = k := by
  unfold GoMap.keys GoMap.set
  rw [keys_setEntry]
  split
  · rename_i h
    constructor
    · exact Or.inl
    · rintro (h1 | h1)
      · exact h1
      · rw [h1]; exact h
  · simp

theorem GoMap.nodup_keys_set {V : Type} (m : GoMap V) (k : String) (v : V)
    (h : m.keys.Nodup) : (m.set k v).keys.Nodup := by
  unfold GoMap.keys GoMap.set at *
  rw [keys_setEntry]
  split
  · exact h
  · rename_i hk
    exact List.nodup_append.mpr ⟨h, List.nodup_singleton k, by
      intro a ha hb
      rw [List.mem_singleton] at hb
      exact hk (hb ▸ ha)⟩

theorem domainSet_nodup {URL σ : Type} (E : Env URL σ) : ∀ (urls : List String) (m : GoMap Bool),
    m.keys.Nodup → (domainSet E urls m).keys.Nodup
  | [], m, h => h
  | u :: urls, m, h => by
    unfold domainSet
    split
    · exact domainSet_nodup E urls m h
    · dsimp only
      split
      · exact domainSet_nodup E urls _ (GoMap.nodup_keys_set m _ _ h)
      · exact domainSet_nodup E urls m h

theorem mem_domainSet {URL σ : Type} (E : Env URL σ) (d : String) :
    ∀ (urls : List String) (m : GoMap Bool),
    d ∈ (domainSet E urls m).keys ↔
      d ∈ m.keys ∨ ∃ u ∈ urls, ∃ p, E.urlParse u = some p ∧ E.hostname p = d ∧ d ≠ ""
  | [], m => by simp [domainSet]
  | u :: urls, m => by
    unfold domainSet
    split
    · rename_i hp
      rw [mem_domainSet E d urls m]
      simp [hp]
    · rename_i p hp
      dsimp only
      split
      · rename_i hne
        rw [mem_domainSet E d urls _, GoMap.mem_keys_set]
        simp only [List.mem_cons, exists_eq_or_imp, hp, Option.some.injEq, exists_eq_left']
        constructor
        · rintro ((h | h) | h)
          · exact Or.inl h
          · subst h
            exact Or.inr (Or.inl ⟨rfl, hne⟩)
          · exact Or.inr (Or.inr h)
        · rintro (h | ⟨h, _⟩ | h)
          · exact Or.inl (Or.inl h)
          · exact Or.inl (Or.inr h.symm)
          · exact Or.inr h
      · rename_i hne
        rw [mem_domainSet E d urls m]
        simp only [List.mem_cons, exists_eq_or_imp, hp, Option.some.injEq, exists_eq_left']
        constructor
        · rintro (h | h)
          · exact Or.inl h
          · exact Or.inr (Or.inr h)
        · rintro (h | ⟨h, h2⟩ | h)
          · exact Or.inl h
          · exact absurd (h ▸ h2) hne
          · exact Or.inr h


/-! ## Strings -/

theorem stringsHasPrefix_iff (s pre : String) : stringsHasPrefix s pre = true ↔ StartsWith s pre := by
  unfold stringsHasPrefix StartsWith
  rw [ List.isPrefixOf_iff_prefix]
  constructor
  · rintro ⟨t, ht⟩
    exact ⟨⟨t⟩, String.ext (by rw [String.data_append, ht])⟩
  · rintro ⟨t, ht⟩
    exact ⟨t.data, by rw [ht, String.data_append]⟩

theorem stringsHasSuffix_iff (s suf : String) : stringsHasSuffix s suf = true ↔ EndsWith s suf := by
  unfold stringsHasSuffix EndsWith
  rw [ List.isSuffixOf_iff_suffix]
  constructor
  · rintro ⟨t, ht⟩
    exact ⟨⟨t⟩, String.ext (by rw [String.data_append, ht])⟩
  · rintro ⟨t, ht⟩
    exact ⟨t.data, by rw [ht, String.data_append]⟩

theorem containsChars_iff (sub : List Char) : ∀ l : List Char,
    containsChars sub l = true ↔ ∃ a b, l = a ++ sub ++ b
  | [] => by
    simp only [containsChars, List.isEmpty_iff]
    constructor
    · rintro rfl
      exact ⟨[], [], rfl⟩
    · rintro ⟨a, b, h⟩
      have h1 := congrArg List.length h
      simp only [List.length_nil, List.length_append] at h1
      exact List.length_eq_zero.mp (by omega)
  | c :: cs => by
    simp only [containsChars, Bool.or_eq_true, containsChars_iff sub cs]
    rw [ List.isPrefixOf_iff_prefix]
    constructor
    · rintro (⟨t, ht⟩ | ⟨a, b, h⟩)
      · exact ⟨[], t, by simp [ht]⟩
      · exact ⟨c :: a, b, by simp [h]⟩
    · rintro ⟨a, b, h⟩
      cases a with
      | nil => exact Or.inl ⟨b, by simp [h]⟩
      | cons x a =>
        simp only [List.cons_append, List.cons.injEq] at h
        exact Or.inr ⟨a, b, h.2⟩

theorem stringsContains_iff (s sub : String) : stringsContains s sub = true ↔ HasSubstring s sub := by
  unfold stringsContains HasSubstring
  rw [containsChars_iff]
  constructor
  · rintro ⟨a, b, h⟩
    exact ⟨⟨a⟩, ⟨b⟩, String.ext (by simp [String.data_append, h])⟩
  · rintro ⟨a, b, h⟩
    exact ⟨a.data, b.data, by rw [h]; simp [String.data_append]⟩

/-! ## base64 -/

set_option maxRecDepth 100000 in
theorem decChar_encChar_lt : ∀ i, i < 64 → decChar (encChar i) = some i := by decide

set_option maxRecDepth 100000 in
theorem encChar_ne_special : ∀ i, i < 64 →
    encChar i ≠ '=' ∧ encChar i ≠ '\r' ∧ encChar i ≠ '\n' := by decide

theorem encChar_mod (i : Nat) : encChar (i % 64) = encChar i := by simp [encChar]

theorem decChar_encChar (i : Nat) : decChar (encChar i) = some (i % 64) := by
  have h := decChar_encChar_lt (i % 64) (Nat.mod_lt i (by decide))
  rw [encChar_mod] at h
  exact h

theorem encChar_ne_pad (i : Nat) : encChar i ≠ '=' := by
  have h := (encChar_ne_special (i % 64) (Nat.mod_lt i (by decide))).1
  rw [encChar_mod] at h
  exact h

theorem encChar_kept (i : Nat) : decide (encChar i ≠ '\r' ∧ encChar i ≠ '\n') = true := by
  have h := (encChar_ne_special (i % 64) (Nat.mod_lt i (by decide))).2
  rw [encChar_mod] at h
  exact decide_eq_true h

theorem decodeChars_encodeChars : ∀ src : List Byte, decodeChars (encodeChars src) = some src
  | [] => rfl
  | [a] => by
    obtain ⟨a, ha⟩ := a
    simp only [encodeChars, decodeChars, decChar_encChar]
    simp [toByte]
    omega
  | [a, b] => by
    obtain ⟨a, ha⟩ := a
    obtain ⟨b, hb⟩ := b
    simp only [encodeChars, decodeChars, decChar_encChar]
    simp [toByte, encChar_ne_pad]
    omega
  | a :: b :: c :: rest => by
    obtain ⟨a, ha⟩ := a
    obtain ⟨b, hb⟩ := b
    obtain ⟨c, hc⟩ := c
    have ih := decodeChars_encodeChars rest
    simp only [encodeChars, decodeChars, decChar_encChar, ih]
    simp [toByte, encChar_ne_pad]
    omega

theorem filter_encodeChars : ∀ src : List Byte,
    (encodeChars src).filter (fun c => decide (c ≠ '\r' ∧ c ≠ '\n')) = encodeChars src
  | [] => rfl
  | [a] => by
    have hpad : decide ('=' ≠ '\r' ∧ '=' ≠ '\n') = true := by decide
    simp only [encodeChars, List.filter_cons, encChar_kept, hpad, if_true, List.filter_nil]
  | [a, b] => by
    have hpad : decide ('=' ≠ '\r' ∧ '=' ≠ '\n') = true := by decide
    simp only [encodeChars, List.filter_cons, encChar_kept, hpad, if_true, List.filter_nil]
  | a :: b :: c :: rest => by
    simp only [encodeChars, List.filter_cons, encChar_kept, if_true, filter_encodeChars rest]

theorem DecodeString_EncodeToString (src : List Byte) :
    DecodeString (EncodeToString src) = some src := by
  unfold DecodeString EncodeToString
  rw [filter_encodeChars, decodeChars_encodeChars]

/-! ## The fetch guard -/

theorem dataURL_ne_empty (a b : String) : "data:" ++ a ++ ";base64," ++ b ≠ "" := by
  intro h
  have h1 := congrArg String.length h
  simp only [String.length_append] at h1
  have h2 : "data:".length = 5 := by decide
  have h3 : "".length = 0 := by decide
  omega

theorem acceptedContentType_iff (contentType : String) :
    AcceptedContentType contentType ↔
      ¬ (contentType ≠ "" ∧ (!stringsHasPrefix contentType "image/") = true ∧
        (!stringsContains contentType "icon") = true ∧
        (!stringsContains contentType "octet-stream") = true) := by
  unfold AcceptedContentType
  rw [← stringsHasPrefix_iff, ← stringsContains_iff, ← stringsContains_iff]
  by_cases h0 : contentType = "" <;>
    cases stringsHasPrefix contentType "image/" <;>
    cases stringsContains contentType "icon" <;>
    cases stringsContains contentType "octet-stream" <;> simp [h0]

theorem take_maxFaviconSize_eq_nil (bytes : List Byte) :
    bytes.take maxFaviconSize = [] ↔ bytes = [] := by
  cases bytes with
  | nil => simp
  | cons b bs => simp [maxFaviconSize]

theorem dataURLOfResponse_accepted (url : String) (resp : Response)
    (hlo : 200 ≤ resp.StatusCode) (hhi : resp.StatusCode ≤ 299)
    (hct : AcceptedContentType resp.contentType)
    (hread : (readAllLimit resp.body maxFaviconSize).2 = false)
    (hne : resp.body.bytes ≠ []) :
    dataURLOfResponse url resp =
      "data:" ++ resolveContentType resp.contentType url ++ ";base64," ++
        EncodeToString (resp.body.bytes.take maxFaviconSize) := by
  have hst : ¬ (resp.StatusCode < 200 ∨ resp.StatusCode ≥ 300) := by omega
  have hlen : ¬ (resp.body.bytes.take maxFaviconSize).length = 0 := by
    rw [List.length_eq_zero, take_maxFaviconSize_eq_nil]
    exact hne
  have hlen2 : ¬ (readAllLimit resp.body maxFaviconSize).1.length = 0 := hlen
  unfold dataURLOfResponse
  rw [if_neg hst]
  dsimp only
  rw [if_neg ((acceptedContentType_iff _).mp hct), hread, if_neg hlen2]
  simp [readAllLimit]

theorem dataURLOfResponse_eq_empty_iff (url : String) (resp : Response) :
    dataURLOfResponse url resp = "" ↔
      (resp.StatusCode < 200 ∨ 299 < resp.StatusCode) ∨ ¬ AcceptedContentType resp.contentType ∨
        (readAllLimit resp.body maxFaviconSize).2 = true ∨ resp.body.bytes = [] := by
  by_cases hst : resp.StatusCode < 200 ∨ 299 < resp.StatusCode
  · have hst2 : resp.StatusCode < 200 ∨ resp.StatusCode ≥ 300 := by omega
    simp [dataURLOfResponse, hst, hst2]
  · by_cases hct : AcceptedContentType resp.contentType
    · cases hread : (readAllLimit resp.body maxFaviconSize).2
      · by_cases hne : resp.body.bytes = []
        · have hst2 : ¬ (resp.StatusCode < 200 ∨ resp.StatusCode ≥ 300) := by omega
          have hlen : (readAllLimit resp.body maxFaviconSize).1.length = 0 := by
            simp [readAllLimit, hne]
          unfold dataURLOfResponse
          rw [if_neg hst2]
          dsimp only
          rw [if_neg ((acceptedContentType_iff _).mp hct), hread, if_pos hlen]
          simp [hne]
        · rw [dataURLOfResponse_accepted url resp (by omega) (by omega) hct hread hne]
          simp [hst, hct, hne, dataURL_ne_empty]
      · have hst2 : ¬ (resp.StatusCode < 200 ∨ resp.StatusCode ≥ 300) := by omega
        unfold dataURLOfResponse
        rw [if_neg hst2]
        dsimp only
        rw [if_neg ((acceptedContentType_iff _).mp hct), hread]
        simp
    · have hst2 : ¬ (resp.StatusCode < 200 ∨ resp.StatusCode ≥ 300) := by omega
      unfold dataURLOfResponse
      rw [if_neg hst2]
      dsimp only
      rw [if_pos (not_not.mp (mt (acceptedContentType_iff _).mpr hct))]
      simp [hct]

theorem fetchFaviconDataURL_of_response {URL σ : Type} (E : Env URL σ) (f : FaviconFetcher σ)
    (url : String) (resp : Response) (hreq : E.urlParse url ≠ none)
    (hdo : (E.roundTrip f.client url).1 = some resp) :
    (fetchFaviconDataURL E f url).1 = dataURLOfResponse url resp := by
  unfold fetchFaviconDataURL
  cases hp : E.urlParse url with
  | none => exact absurd hp hreq
  | some u => simp [clientDo, hdo]

theorem fetchFaviconDataURL_response_of_ok {URL σ : Type} (E : Env URL σ) (f : FaviconFetcher σ)
    (url : String) (hok : (fetchFaviconDataURL E f url).1 ≠ "") :
    ∃ resp, (E.roundTrip f.client url).1 = some resp ∧
      (fetchFaviconDataURL E f url).1 = dataURLOfResponse url resp := by
  unfold fetchFaviconDataURL at hok ⊢
  cases hp : E.urlParse url with
  | none => simp [hp] at hok
  | some u =>
    cases hr : (E.roundTrip f.client url).1 with
    | none => simp [hp, clientDo, hr] at hok
    | some resp => exact ⟨resp, rfl, by simp [clientDo, hr]⟩

theorem tryCandidates_cases {URL σ : Type} (E : Env URL σ) :
    ∀ (us : List String) (f : FaviconFetcher σ),
    (∃ f1, afterFailures E us f = some f1) ∨
      ∃ pre c post f1, us = pre ++ c :: post ∧ afterFailures E pre f = some f1 ∧
        (fetchFaviconDataURL E f1 c).1 ≠ ""
  | [], f => Or.inl ⟨f, rfl⟩
  | u :: us, f => by
    by_cases hu : (fetchFaviconDataURL E f u).1 = ""
    · rcases tryCandidates_cases E us (fetchFaviconDataURL E f u).2 with
        ⟨f1, h⟩ | ⟨pre, c, post, f1, h1, h2, h3⟩
      · exact Or.inl ⟨f1, by simp [afterFailures, hu, h]⟩
      · exact Or.inr ⟨u :: pre, c, post, f1, by simp [h1], by simp [afterFailures, hu, h2], h3⟩
    · exact Or.inr ⟨[], u, us, f, rfl, rfl, hu⟩

/-! ## The candidate cascade -/

/-- C1: `fetchFaviconForDomain` tries the candidates in list order and stops at the first
success.  If the candidate list is `pre ++ c :: post`, the fetches of `pre`, done in this
order, all return the empty string (leading to the fetcher `f1`) and the fetch of `c` then
returns a non-empty data URL, then the call ends in the state right after the fetch of `c`
with that data URL stored under the domain: the requests sent are those of `pre` followed
by `c`, and no URL of `post` is requested. -/
theorem fetchFaviconForDomain_stops_at_first_success {URL σ : Type} (E : Env URL σ)
    (f f1 : FaviconFetcher σ) (domain : String) (pre post : List String) (c : String)
    (hcand : faviconCandidates E f domain = pre ++ c :: post)
    (hpre : afterFailures E pre (discoverFaviconFromHTML E f ("https://" ++ domain)).2 = some f1)
    (hok : (fetchFaviconDataURL E f1 c).1 ≠ "") :
    fetchFaviconForDomain E f domain =
        { (fetchFaviconDataURL E f1 c).2 with
          cache := { cache := f.cache.cache.set domain (fetchFaviconDataURL E f1 c).1 } } ∧
      GetFaviconDataURL (fetchFaviconForDomain E f domain) domain =
        (fetchFaviconDataURL E f1 c).1 ∧
      (fetchFaviconForDomain E f domain).client = (E.roundTrip f1.client c).2 ∧
      (fetchFaviconForDomain E f domain).sent =
        (discoverFaviconFromHTML E f ("https://" ++ domain)).2.sent ++
          pre.filter (fun u => (E.urlParse u).isSome) ++ [c] := by
  have hrun : fetchFaviconForDomain E f domain =
      { (fetchFaviconDataURL E f1 c).2 with
        cache := { cache := f.cache.cache.set domain (fetchFaviconDataURL E f1 c).1 } } := by
    unfold fetchFaviconForDomain
    rw [hcand, tryCandidates_first_success E domain c post pre _ f1 hpre hok,
      fetchFaviconDataURL_cache, afterFailures_cache E pre _ f1 hpre,
      discoverFaviconFromHTML_cache]
  have hdo := (fetchFaviconDataURL_ok E f1 c hok).2
  have hsent := fetchFaviconDataURL_sent E f1 c
  rw [(fetchFaviconDataURL_ok E f1 c hok).1, if_pos rfl,
    afterFailures_sent E pre _ f1 hpre] at hsent
  refine ⟨hrun, ?_, ?_, ?_⟩
  · rw [hrun]
    exact congrArg (fun o => o.getD "") (GoMap.lookup_set_self _ _ _)
  · rw [hrun]
    show (fetchFaviconDataURL E f1 c).2.client = _
    rw [hdo]
    rfl
  · rw [hrun]
    exact hsent

/-- C1, on the demo server: both HTML hints fail, `/favicon.ico` succeeds and is cached;
`/favicon.png` and the later fallbacks are not requested. -/
theorem fetchFaviconForDomain_stops_at_first_success_witness :
    GetFaviconDataURL (fetchFaviconForDomain demoEnv (NewFaviconFetcher 0) "example.com")
        "example.com" = "data:image/x-icon;base64,Aw==" ∧
      (fetchFaviconForDomain demoEnv (NewFaviconFetcher 0) "example.com").sent =
        ["https://example.com", "https://example.com/a.png", "https://example.com/b.png",
          "https://example.com/favicon.ico"] := by
  have h := fetchFaviconForDomain_stops_at_first_success demoEnv (NewFaviconFetcher 0)
    { cache := { cache := GoMap.empty }, client := 3,
      sent := ["https://example.com", "https://example.com/a.png",
        "https://example.com/b.png"] }
    "example.com" ["https://example.com/a.png", "https://example.com/b.png"]
    ["https://example.com/favicon.png", "https://example.com/apple-touch-icon.png",
      "https://example.com/apple-touch-icon-precomposed.png"]
    "https://example.com/favicon.ico" (by decide) (by decide) (by decide)
  refine ⟨h.2.1.trans (by decide), h.2.2.2.trans (by decide)⟩

/-- C10: when every candidate's fetch fails (the fetches, done in list order, all return
the empty string), `fetchFaviconForDomain` writes nothing: the cache is the one before the
call, so every key reads as before. -/
theorem fetchFaviconForDomain_all_fail_cache_unchanged {URL σ : Type} (E : Env URL σ)
    (f f1 : FaviconFetcher σ) (domain : String)
    (hall : afterFailures E (faviconCandidates E f domain)
      (discoverFaviconFromHTML E f ("https://" ++ domain)).2 = some f1) :
    fetchFaviconForDomain E f domain = f1 ∧
      (fetchFaviconForDomain E f domain).cache = f.cache ∧
      ∀ key : String,
        (fetchFaviconForDomain E f domain).cache.cache.lookup key = f.cache.cache.lookup key ∧
        GetFaviconDataURL (fetchFaviconForDomain E f domain) key = GetFaviconDataURL f key := by
  have hrun : fetchFaviconForDomain E f domain = f1 :=
    tryCandidates_all_fail E domain _ _ f1 hall
  have hcache : (fetchFaviconForDomain E f domain).cache = f.cache := by
    rw [hrun, afterFailures_cache E _ _ f1 hall, discoverFaviconFromHTML_cache]
  refine ⟨hrun, hcache, fun key => ⟨by rw [hcache], ?_⟩⟩
  unfold GetFaviconDataURL
  rw [hcache]

/-- C10, on a server that is down: an entry cached earlier for another domain and the
absent entry of the domain itself are both as before. -/
theorem fetchFaviconForDomain_all_fail_cache_unchanged_witness :
    (fetchFaviconForDomain offlineEnv
        { cache := { cache := ⟨[("example.org", "data:image/png;base64,AA==")]⟩ },
          client := 0, sent := [] } "example.com").cache =
      { cache := ⟨[("example.org", "data:image/png;base64,AA==")]⟩ } :=
  (fetchFaviconForDomain_all_fail_cache_unchanged offlineEnv
    { cache := { cache := ⟨[("example.org", "data:image/png;base64,AA==")]⟩ },
      client := 0, sent := [] }
    { cache := { cache := ⟨[("example.org", "data:image/png;base64,AA==")]⟩ },
      client := 5,
      sent := ["https://example.com", "https://example.com/favicon.ico",
        "https://example.com/favicon.png", "https://example.com/apple-touch-icon.png",
        "https://example.com/apple-touch-icon-precomposed.png"] }
    "example.com" (by decide)).2.1

/-- C2: the candidate list of `fetchFaviconForDomain` is the list of HTML hints followed
by the four conventional URLs of the domain, in the fixed order, and the cascade runs over
exactly this list; the hints are the links extracted from the parsed page when discovery
succeeds, and there is none when discovery fails (request error, status outside 2xx,
parse failure), in which case the list is exactly the four URLs. -/
theorem faviconCandidates_eq_hints_then_fallbacks {URL σ : Type} (E : Env URL σ)
    (f : FaviconFetcher σ) (domain : String) :
    faviconCandidates E f domain =
        (discoverFaviconFromHTML E f ("https://" ++ domain)).1 ++
          ["https://" ++ domain ++ "/favicon.ico", "https://" ++ domain ++ "/favicon.png",
            "https://" ++ domain ++ "/apple-touch-icon.png",
            "https://" ++ domain ++ "/apple-touch-icon-precomposed.png"] ∧
      fetchFaviconForDomain E f domain =
        tryCandidates E domain
          ((discoverFaviconFromHTML E f ("https://" ++ domain)).1 ++
            ["https://" ++ domain ++ "/favicon.ico", "https://" ++ domain ++ "/favicon.png",
              "https://" ++ domain ++ "/apple-touch-icon.png",
              "https://" ++ domain ++ "/apple-touch-icon-precomposed.png"])
          (discoverFaviconFromHTML E f ("https://" ++ domain)).2 ∧
      (∀ (u : URL) (resp : Response) (doc : Node),
        E.urlParse ("https://" ++ domain) = some u →
        (E.roundTrip f.client ("https://" ++ domain)).1 = some resp →
        200 ≤ resp.StatusCode → resp.StatusCode ≤ 299 → E.htmlParse resp.body = some doc →
        (discoverFaviconFromHTML E f ("https://" ++ domain)).1 =
          extractFaviconURLsFromHTML E doc u) ∧
      (DiscoveryFails E f ("https://" ++ domain) →
        (discoverFaviconFromHTML E f ("https://" ++ domain)).1 = [] ∧
        faviconCandidates E f domain =
          ["https://" ++ domain ++ "/favicon.ico", "https://" ++ domain ++ "/favicon.png",
            "https://" ++ domain ++ "/apple-touch-icon.png",
            "https://" ++ domain ++ "/apple-touch-icon-precomposed.png"]) := by
  refine ⟨rfl, rfl, ?_, ?_⟩
  · intro u resp doc hu hresp hlo hhi hdoc
    have hst : ¬ (resp.StatusCode < 200 ∨ resp.StatusCode ≥ 300) := by omega
    simp [discoverFaviconFromHTML, clientDo, hu, hresp, hst, hdoc]
  · intro hfail
    have hnil : (discoverFaviconFromHTML E f ("https://" ++ domain)).1 = [] := by
      unfold discoverFaviconFromHTML
      rcases hfail with h | h | ⟨resp, hresp, h⟩
      · simp [h]
      · cases hp : E.urlParse ("https://" ++ domain) <;> simp [clientDo, h]
      · cases hp : E.urlParse ("https://" ++ domain)
        · simp
        · rcases h with h | h | h
          · have hst : resp.StatusCode < 200 ∨ resp.StatusCode ≥ 300 := Or.inl h
            simp [clientDo, hresp, hst]
          · have hst : resp.StatusCode < 200 ∨ resp.StatusCode ≥ 300 := Or.inr (by omega)
            simp [clientDo, hresp, hst]
          · by_cases hst : resp.StatusCode < 200 ∨ resp.StatusCode ≥ 300
            · simp [clientDo, hresp, hst]
            · simp [clientDo, hresp, hst, h]
    refine ⟨hnil, ?_⟩
    unfold faviconCandidates
    rw [hnil]
    rfl

/-- C2, on a server that is down: discovery fails and the candidates of `example.com`
are the four conventional URLs. -/
theorem faviconCandidates_eq_hints_then_fallbacks_witness :
    faviconCandidates offlineEnv (NewFaviconFetcher 0) "example.com" =
      ["https://example.com/favicon.ico", "https://example.com/favicon.png",
        "https://example.com/apple-touch-icon.png",
        "https://example.com/apple-touch-icon-precomposed.png"] :=
  ((faviconCandidates_eq_hints_then_fallbacks offlineEnv (NewFaviconFetcher 0)
    "example.com").2.2.2 (Or.inr (Or.inl (by decide)))).2.trans (by decide)

/-! ## Domain extraction and HTML hints -/

/-- C4: every possible return value of `extractUniqueDomains` (there is one) has no
duplicate, does not contain the empty string, contains the hostname of every input that
parses and has a non-empty hostname, and contains only such hostnames: an input that
fails to parse contributes nothing. -/
theorem extractUniqueDomains_unique_hostnames {URL σ : Type} (E : Env URL σ)
    (urls : List String) :
    (∃ domains, extractUniqueDomains E urls domains) ∧
      ∀ domains, extractUniqueDomains E urls domains →
        domains.Nodup ∧ "" ∉ domains ∧
        (∀ u ∈ urls, ∀ p, E.urlParse u = some p → E.hostname p ≠ "" →
          E.hostname p ∈ domains) ∧
        (∀ d ∈ domains, ∃ u ∈ urls, ∃ p, E.urlParse u = some p ∧ E.hostname p = d) := by
  refine ⟨⟨_, List.Perm.refl _⟩, ?_⟩
  intro domains hd
  have hperm : domains.Perm (domainSet E urls GoMap.empty).keys := hd
  have hmem : ∀ d, d ∈ domains ↔
      ∃ u ∈ urls, ∃ p, E.urlParse u = some p ∧ E.hostname p = d ∧ d ≠ "" := by
    intro d
    rw [hperm.mem_iff, mem_domainSet]
    simp [GoMap.keys, GoMap.empty]
  refine ⟨hperm.nodup_iff.mpr (domainSet_nodup E urls _ (by simp [GoMap.keys, GoMap.empty])),
    ?_, ?_, ?_⟩
  · intro h
    obtain ⟨_, _, _, _, _, hne⟩ := (hmem "").mp h
    exact hne rfl
  · intro u hu p hp hne
    exact (hmem _).mpr ⟨u, hu, p, hp, rfl, hne⟩
  · intro d hd
    obtain ⟨u, hu, p, hp, hh, _⟩ := (hmem d).mp hd
    exact ⟨u, hu, p, hp, hh⟩

/-- C4, on a batch with a duplicate host, an unparsable entry and an entry without host. -/
theorem extractUniqueDomains_unique_hostnames_witness :
    extractUniqueDomains demoEnv
        ["https://a.com/x", "bad url", "https://a.com/y", "https://b.org", "nohost"]
        ["b.org", "a.com"] ∧
      ["b.org", "a.com"].Nodup ∧ "" ∉ ["b.org", "a.com"] :=
  ⟨by decide,
    ((extractUniqueDomains_unique_hostnames demoEnv
      ["https://a.com/x", "bad url", "https://a.com/y", "https://b.org", "nohost"]).2
      ["b.org", "a.com"] (by decide)).1,
    ((extractUniqueDomains_unique_hostnames demoEnv
      ["https://a.com/x", "bad url", "https://a.com/y", "https://b.org", "nohost"]).2
      ["b.org", "a.com"] (by decide)).2.1⟩

/-- C3: `extractFaviconURLsFromHTML` returns the resolved hrefs of exactly the icon links
of the tree (`link` elements anywhere in it whose `rel` is, ignoring case, one of the five
icon rels and whose href is present and resolves against the base): first the links
whose `sizes` names 32x32, 64x64, 128x128 or 192x192, in reverse document order, then all
other icon links in document order.  Hence a prioritized link always comes before a
non-prioritized one in the result, wherever the two stand in the document. -/
theorem extractFaviconURLsFromHTML_priority_order {URL σ : Type} (E : Env URL σ) (doc : Node)
    (base : URL) :
    extractFaviconURLsFromHTML E doc base =
        ((((documentOrder doc).filterMap (iconLink E base)).filter (fun l => l.2)).map
            Prod.fst).reverse ++
          (((documentOrder doc).filterMap (iconLink E base)).filter (fun l => !l.2)).map
            Prod.fst ∧
      ∀ p q : String × Bool, p ∈ (documentOrder doc).filterMap (iconLink E base) →
        q ∈ (documentOrder doc).filterMap (iconLink E base) → p.2 = true → q.2 = false →
        ∃ l1 l2 l3, extractFaviconURLsFromHTML E doc base = l1 ++ p.1 :: (l2 ++ q.1 :: l3) := by
  have heq : extractFaviconURLsFromHTML E doc base =
      ((((documentOrder doc).filterMap (iconLink E base)).filter (fun l => l.2)).map
          Prod.fst).reverse ++
        (((documentOrder doc).filterMap (iconLink E base)).filter (fun l => !l.2)).map
          Prod.fst := by
    unfold extractFaviconURLsFromHTML
    rw [walkHTML_eq, foldl_placeLink, List.append_nil]
  refine ⟨heq, ?_⟩
  intro p q hp hq hp2 hq2
  have h1 : p.1 ∈ ((((documentOrder doc).filterMap (iconLink E base)).filter
      (fun l => l.2)).map Prod.fst).reverse :=
    List.mem_reverse.mpr (List.mem_map_of_mem _ (List.mem_filter.mpr ⟨hp, hp2⟩))
  have h2 : q.1 ∈ (((documentOrder doc).filterMap (iconLink E base)).filter
      (fun l => !l.2)).map Prod.fst :=
    List.mem_map_of_mem _ (List.mem_filter.mpr ⟨hq, by simp [hq2]⟩)
  obtain ⟨s1, t1, e1⟩ := List.append_of_mem h1
  obtain ⟨s2, t2, e2⟩ := List.append_of_mem h2
  refine ⟨s1, t1 ++ s2, t2, ?_⟩
  rw [heq, e1, e2]
  simp

/-- C3, on the demo page: the 32x32 link stands after the plain link in the document and
before it in the result. -/
theorem extractFaviconURLsFromHTML_priority_order_witness :
    extractFaviconURLsFromHTML demoEnv demoDoc "https://example.com" =
      ["https://example.com/a.png", "https://example.com/b.png"] ∧
    ∃ l1 l2 l3, extractFaviconURLsFromHTML demoEnv demoDoc "https://example.com" =
      l1 ++ "https://example.com/a.png" :: (l2 ++ "https://example.com/b.png" :: l3) :=
  ⟨by decide,
    (extractFaviconURLsFromHTML_priority_order demoEnv demoDoc "https://example.com").2
      ("https://example.com/a.png", true) ("https://example.com/b.png", false)
      (by decide) (by decide) rfl rfl⟩

/-! ## Fetch guard: claims -/

/-- C5: for a response received without transport error (the request was built, `client.Do`
returned the response and the body was read without error), `fetchFaviconDataURL` returns
the empty string exactly when the status is outside [200,299], or a Content-Type is present
that neither starts with `image/` nor contains `icon` nor contains `octet-stream`, or the
body read is empty.  With no Content-Type only status and body decide, and a response
of type `text/html` is rejected whatever its status. -/
theorem fetchFaviconDataURL_fails_iff {URL σ : Type} (E : Env URL σ) (f : FaviconFetcher σ)
    (url : String) (resp : Response) (hreq : E.urlParse url ≠ none)
    (hdo : (E.roundTrip f.client url).1 = some resp) (hread : resp.body.err = false) :
    ((fetchFaviconDataURL E f url).1 = "" ↔
        (resp.StatusCode < 200 ∨ 299 < resp.StatusCode) ∨
        (resp.contentType ≠ "" ∧ ¬ StartsWith resp.contentType "image/" ∧
          ¬ HasSubstring resp.contentType "icon" ∧
          ¬ HasSubstring resp.contentType "octet-stream") ∨
        (readAllLimit resp.body maxFaviconSize).1 = []) ∧
      (resp.contentType = "" →
        ((fetchFaviconDataURL E f url).1 = "" ↔
          (resp.StatusCode < 200 ∨ 299 < resp.StatusCode) ∨
            (readAllLimit resp.body maxFaviconSize).1 = [])) ∧
      (resp.contentType = "text/html" → (fetchFaviconDataURL E f url).1 = "") := by
  have hnoerr : ¬ (readAllLimit resp.body maxFaviconSize).2 = true := by
    simp [readAllLimit, hread]
  have hdata : (readAllLimit resp.body maxFaviconSize).1 = [] ↔ resp.body.bytes = [] :=
    take_maxFaviconSize_eq_nil resp.body.bytes
  have hacc : ¬ AcceptedContentType resp.contentType ↔
      (resp.contentType ≠ "" ∧ ¬ StartsWith resp.contentType "image/" ∧
        ¬ HasSubstring resp.contentType "icon" ∧
        ¬ HasSubstring resp.contentType "octet-stream") := by
    unfold AcceptedContentType
    tauto
  have hiff : (fetchFaviconDataURL E f url).1 = "" ↔
      (resp.StatusCode < 200 ∨ 299 < resp.StatusCode) ∨
      (resp.contentType ≠ "" ∧ ¬ StartsWith resp.contentType "image/" ∧
        ¬ HasSubstring resp.contentType "icon" ∧
        ¬ HasSubstring resp.contentType "octet-stream") ∨
      (readAllLimit resp.body maxFaviconSize).1 = [] := by
    rw [fetchFaviconDataURL_of_response E f url resp hreq hdo, dataURLOfResponse_eq_empty_iff,
      hacc, hdata]
    tauto
  refine ⟨hiff, ?_, ?_⟩
  · intro hct
    rw [hiff]
    constructor
    · rintro (h | h | h)
      · exact Or.inl h
      · exact absurd hct h.1
      · exact Or.inr h
    · rintro (h | h)
      · exact Or.inl h
      · exact Or.inr (Or.inr h)
  · intro hct
    rw [hiff]
    refine Or.inr (Or.inl ?_)
    rw [← stringsHasPrefix_iff, ← stringsContains_iff, ← stringsContains_iff, hct]
    decide

/-- C5, on the demo server: the page itself, served as `text/html` with status 200, is
rejected as a favicon. -/
theorem fetchFaviconDataURL_fails_iff_witness :
    (fetchFaviconDataURL demoEnv (NewFaviconFetcher 0) "https://example.com").1 = "" :=
  (fetchFaviconDataURL_fails_iff demoEnv (NewFaviconFetcher 0) "https://example.com"
    { StatusCode := 200, contentType := "text/html", body := ⟨[60], false, false⟩ }
    (by decide) (by decide) rfl).2.2 rfl

/-- C7 fails as stated: for `/favicon.png?v=2`, answered without Content-Type, the type in
the data URL is `image/x-icon`, not `image/png`. -/
theorem fetchFaviconDataURL_png_query_counterexample :
    (fetchFaviconDataURL demoEnv (NewFaviconFetcher 0)
        "https://example.com/favicon.png?v=2").1 = "data:image/x-icon;base64,AAEC" ∧
      resolveContentType "" "https://example.com/favicon.png?v=2" ≠ "image/png" := by
  decide

/-- C7 (amended): for an accepted response without Content-Type, the content type in the
data URL is `image/png` when the URL string itself ends in `.png`, and `image/x-icon` in
every other case (a URL ending in `.ico` included). -/
theorem fetchFaviconDataURL_type_from_url_suffix {URL σ : Type} (E : Env URL σ)
    (f : FaviconFetcher σ) (url : String) (resp : Response) (hreq : E.urlParse url ≠ none)
    (hdo : (E.roundTrip f.client url).1 = some resp)
    (hlo : 200 ≤ resp.StatusCode) (hhi : resp.StatusCode ≤ 299)
    (hct : resp.contentType = "") (hread : resp.body.err = false)
    (hne : resp.body.bytes ≠ []) :
    (EndsWith url ".png" →
        resolveContentType resp.contentType url = "image/png" ∧
        (fetchFaviconDataURL E f url).1 =
          "data:" ++ "image/png" ++ ";base64," ++
            EncodeToString (resp.body.bytes.take maxFaviconSize)) ∧
      (¬ EndsWith url ".png" →
        resolveContentType resp.contentType url = "image/x-icon" ∧
        (fetchFaviconDataURL E f url).1 =
          "data:" ++ "image/x-icon" ++ ";base64," ++
            EncodeToString (resp.body.bytes.take maxFaviconSize)) := by
  have hrun := fetchFaviconDataURL_of_response E f url resp hreq hdo
  rw [dataURLOfResponse_accepted url resp hlo hhi (Or.inl hct)
    (by simp [readAllLimit, hread]) hne] at hrun
  constructor
  · intro hpng
    have h1 : resolveContentType resp.contentType url = "image/png" := by
      simp [resolveContentType, hct, (stringsHasSuffix_iff url ".png").mpr hpng]
    exact ⟨h1, by rw [hrun, h1]⟩
  · intro hpng
    have h0 : stringsHasSuffix url ".png" = false := by
      cases h : stringsHasSuffix url ".png"
      · rfl
      · exact absurd ((stringsHasSuffix_iff url ".png").mp h) hpng
    have h1 : resolveContentType resp.contentType url = "image/x-icon" := by
      simp [resolveContentType, hct, h0]
    exact ⟨h1, by rw [hrun, h1]⟩

/-- C7 (amended), on the demo server: the URL ends in `?v=2`, the type is `image/x-icon`. -/
theorem fetchFaviconDataURL_type_from_url_suffix_witness :
    (fetchFaviconDataURL demoEnv (NewFaviconFetcher 0)
        "https://example.com/favicon.png?v=2").1 =
      "data:" ++ "image/x-icon" ++ ";base64," ++
        EncodeToString (List.take maxFaviconSize [0, 1, 2]) :=
  ((fetchFaviconDataURL_type_from_url_suffix demoEnv (NewFaviconFetcher 0)
    "https://example.com/favicon.png?v=2"
    { StatusCode := 200, contentType := "", body := ⟨[0, 1, 2], false, false⟩ }
    (by decide) (by decide) (by decide) (by decide) rfl rfl (by decide)).2
    (by rw [← stringsHasSuffix_iff]; decide)).2

/-- C8: for an accepted response (status 2xx, content type let through, body not empty
and read without error) the payload encoded into the data URL is the first
min(len(body), 1048576) bytes of the body; a body of at most 1,048,576 bytes, so one of
exactly 1,048,576 bytes, is encoded in full, a longer one is cut at the ceiling and
still accepted, and the decoded payload never has more than 1,048,576 bytes. -/
theorem fetchFaviconDataURL_body_ceiling {URL σ : Type} (E : Env URL σ) (f : FaviconFetcher σ)
    (url : String) (resp : Response) (hreq : E.urlParse url ≠ none)
    (hdo : (E.roundTrip f.client url).1 = some resp)
    (hlo : 200 ≤ resp.StatusCode) (hhi : resp.StatusCode ≤ 299)
    (hct : AcceptedContentType resp.contentType)
    (hread : resp.body.err = false)
    (hne : resp.body.bytes ≠ []) :
    (fetchFaviconDataURL E f url).1 =
        "data:" ++ resolveContentType resp.contentType url ++ ";base64," ++
          EncodeToString (resp.body.bytes.take 1048576) ∧
      (fetchFaviconDataURL E f url).1 ≠ "" ∧
      (resp.body.bytes.take 1048576).length = min resp.body.bytes.length 1048576 ∧
      (resp.body.bytes.length ≤ 1048576 → resp.body.bytes.take 1048576 = resp.body.bytes) ∧
      ∃ payload, DecodeString (EncodeToString (resp.body.bytes.take 1048576)) = some payload ∧
        payload = resp.body.bytes.take 1048576 ∧ payload.length ≤ 1048576 := by
  have hnoerr : (readAllLimit resp.body maxFaviconSize).2 = false := by
    simp [readAllLimit, hread]
  have hrun := fetchFaviconDataURL_of_response E f url resp hreq hdo
  rw [dataURLOfResponse_accepted url resp hlo hhi hct hnoerr hne] at hrun
  have hmax : maxFaviconSize = 1048576 := by decide
  rw [hmax] at hrun
  refine ⟨hrun, ?_, ?_, ?_, ?_⟩
  · rw [hrun]
    exact dataURL_ne_empty _ _
  · rw [List.length_take, Nat.min_comm]
  · intro hle
    exact List.take_of_length_le hle
  · refine ⟨_, DecodeString_EncodeToString _, rfl, ?_⟩
    rw [List.length_take]
    exact Nat.min_le_left _ _

/-- C8, at the ceiling: an icon of exactly 1,048,576 bytes is accepted and encoded in
full; an icon of 1,048,577 bytes is accepted too, with a payload of 1,048,576 bytes. -/
theorem fetchFaviconDataURL_body_ceiling_witness :
    ceilingBody.length = 1048576 ∧
      (fetchFaviconDataURL ceilingEnv (NewFaviconFetcher 0) "https://example.com/exact.png").1 =
        "data:" ++ resolveContentType "image/png" "https://example.com/exact.png" ++
          ";base64," ++ EncodeToString ceilingBody ∧
      overCeilingBody.length = 1048577 ∧
      (fetchFaviconDataURL ceilingEnv (NewFaviconFetcher 0)
        "https://example.com/over.png").1 ≠ "" ∧
      (overCeilingBody.take 1048576).length = 1048576 ∧
      (fetchFaviconDataURL ceilingEnv (NewFaviconFetcher 0) "https://example.com/over.png").1 =
        "data:" ++ resolveContentType "image/png" "https://example.com/over.png" ++
          ";base64," ++ EncodeToString (overCeilingBody.take 1048576) := by
  have hlen : ceilingBody.length = 1048576 := List.length_replicate _ _
  have hlen2 : overCeilingBody.length = 1048577 := List.length_replicate _ _
  have hexact := fetchFaviconDataURL_body_ceiling ceilingEnv (NewFaviconFetcher 0)
    "https://example.com/exact.png"
    { StatusCode := 200, contentType := "image/png", body := ⟨ceilingBody, false, false⟩ }
    (by decide) rfl (by decide) (by decide) (Or.inr (Or.inl ⟨"png", by decide⟩)) rfl
    (fun h => by
      have h0 := congrArg List.length h
      rw [hlen] at h0
      exact absurd h0 (by decide))
  have hover := fetchFaviconDataURL_body_ceiling ceilingEnv (NewFaviconFetcher 0)
    "https://example.com/over.png"
    { StatusCode := 200, contentType := "image/png", body := ⟨overCeilingBody, false, false⟩ }
    (by decide) rfl (by decide) (by decide) (Or.inr (Or.inl ⟨"png", by decide⟩)) rfl
    (fun h => by
      have h0 := congrArg List.length h
      rw [hlen2] at h0
      exact absurd h0 (by decide))
  have hfull : ceilingBody.take 1048576 = ceilingBody := hexact.2.2.2.1 (Nat.le_of_eq hlen)
  have hcut : (overCeilingBody.take 1048576).length = 1048576 := by
    have h := hover.2.2.1
    rw [hlen2] at h
    exact h
  refine ⟨hlen, ?_, hlen2, hover.2.1, hcut, hover.1⟩
  have h := hexact.1
  rw [hfull] at h
  exact h

/-- C9: whenever `fetchFaviconDataURL` succeeds, on a response with resolved content type
`ct` and bytes read `b`, the returned string is exactly `"data:" ++ ct ++ ";base64," ++`
the standard base64 encoding of `b`, and decoding what follows the `";base64,"` of this
format gives `b` back. -/
theorem fetchFaviconDataURL_data_url_round_trip {URL σ : Type} (E : Env URL σ)
    (f : FaviconFetcher σ) (url : String) (hok : (fetchFaviconDataURL E f url).1 ≠ "") :
    ∃ resp, (E.roundTrip f.client url).1 = some resp ∧
      (fetchFaviconDataURL E f url).1 =
        "data:" ++ resolveContentType resp.contentType url ++ ";base64," ++
          EncodeToString (readAllLimit resp.body maxFaviconSize).1 ∧
      DecodeString (EncodeToString (readAllLimit resp.body maxFaviconSize).1) =
        some (readAllLimit resp.body maxFaviconSize).1 ∧
      DecodeString (String.mk ((fetchFaviconDataURL E f url).1.data.drop
          ("data:" ++ resolveContentType resp.contentType url ++ ";base64,").length)) =
        some (readAllLimit resp.body maxFaviconSize).1 := by
  obtain ⟨resp, hdo, hrun⟩ := fetchFaviconDataURL_response_of_ok E f url hok
  have hne : dataURLOfResponse url resp ≠ "" := by
    rw [← hrun]
    exact hok
  have hcond := mt (dataURLOfResponse_eq_empty_iff url resp).mpr hne
  have hst : ¬ (resp.StatusCode < 200 ∨ 299 < resp.StatusCode) := fun h => hcond (Or.inl h)
  have hform : dataURLOfResponse url resp =
      "data:" ++ resolveContentType resp.contentType url ++ ";base64," ++
        EncodeToString (readAllLimit resp.body maxFaviconSize).1 :=
    dataURLOfResponse_accepted url resp (by omega) (by omega)
      (not_not.mp fun h => hcond (Or.inr (Or.inl h)))
      (by
        cases h : (readAllLimit resp.body maxFaviconSize).2
        · rfl
        · exact absurd (Or.inr (Or.inr (Or.inl h))) hcond)
      (fun h => hcond (Or.inr (Or.inr (Or.inr h))))
  refine ⟨resp, hdo, hrun.trans hform, DecodeString_EncodeToString _, ?_⟩
  rw [hrun, hform]
  have hdrop : ("data:" ++ resolveContentType resp.contentType url ++ ";base64," ++
      EncodeToString (readAllLimit resp.body maxFaviconSize).1).data.drop
        ("data:" ++ resolveContentType resp.contentType url ++ ";base64,").length =
      (EncodeToString (readAllLimit resp.body maxFaviconSize).1).data := by
    rw [String.data_append]
    exact List.drop_left _ _
  rw [hdrop]
  exact DecodeString_EncodeToString _

/-- C9, on the demo server: the icon answered to the first request is one zero byte. -/
theorem fetchFaviconDataURL_data_url_round_trip_witness :
    (fetchFaviconDataURL demoEnv (NewFaviconFetcher 0) "https://example.com/favicon.ico").1 =
        "data:image/x-icon;base64,AA==" ∧
      DecodeString "AA==" = some [0] ∧
      ∃ resp, (demoEnv.roundTrip (NewFaviconFetcher 0).client
          "https://example.com/favicon.ico").1 = some resp ∧
        (fetchFaviconDataURL demoEnv (NewFaviconFetcher 0)
            "https://example.com/favicon.ico").1 =
          "data:" ++ resolveContentType resp.contentType "https://example.com/favicon.ico" ++
            ";base64," ++ EncodeToString (readAllLimit resp.body maxFaviconSize).1 := by
  obtain ⟨resp, h1, h2, _⟩ := fetchFaviconDataURL_data_url_round_trip demoEnv
    (NewFaviconFetcher 0) "https://example.com/favicon.ico" (by decide)
  exact ⟨by decide, by decide, resp, h1, h2⟩

/-! ## Re-running a domain -/

/-- C6 fails as stated: on the demo server, whose icon changes from request to request, a
second `fetchFaviconForDomain` for `example.com` replaces the value cached by the first. -/
theorem fetchFaviconForDomain_overwrite_counterexample :
    ¬ ∀ (f : FaviconFetcher Nat) (domain value : String),
      f.cache.cache.lookup domain = some value →
      (fetchFaviconForDomain demoEnv f domain).cache.cache.lookup domain = some value := by
  intro h
  have h1 := h (fetchFaviconForDomain demoEnv (NewFaviconFetcher 0) "example.com")
    "example.com" "data:image/x-icon;base64,Aw==" (by decide)
  revert h1
  decide

/-- C6 (amended): a call of `fetchFaviconForDomain` for a domain never changes the entry
of another domain and never removes the domain's own entry.  Either every candidate fails
and the cache is exactly as before, or the value stored under the domain afterwards is the
data URL of the first successful candidate of this call, whatever was stored before. -/
theorem fetchFaviconForDomain_rerun_cache {URL σ : Type} (E : Env URL σ) (f : FaviconFetcher σ)
    (domain : String) :
    (∀ key, key ≠ domain →
        (fetchFaviconForDomain E f domain).cache.cache.lookup key = f.cache.cache.lookup key) ∧
      ((f.cache.cache.lookup domain).isSome = true →
        ((fetchFaviconForDomain E f domain).cache.cache.lookup domain).isSome = true) ∧
      ((∃ f1, afterFailures E (faviconCandidates E f domain)
            (discoverFaviconFromHTML E f ("https://" ++ domain)).2 = some f1 ∧
          (fetchFaviconForDomain E f domain).cache = f.cache) ∨
        ∃ pre c post f1, faviconCandidates E f domain = pre ++ c :: post ∧
          afterFailures E pre (discoverFaviconFromHTML E f ("https://" ++ domain)).2 = some f1 ∧
          (fetchFaviconDataURL E f1 c).1 ≠ "" ∧
          (fetchFaviconForDomain E f domain).cache.cache.lookup domain =
            some (fetchFaviconDataURL E f1 c).1) := by
  rcases tryCandidates_cases E (faviconCandidates E f domain)
      (discoverFaviconFromHTML E f ("https://" ++ domain)).2 with
    ⟨f1, hall⟩ | ⟨pre, c, post, f1, hcand, hpre, hok⟩
  · have hrun : fetchFaviconForDomain E f domain = f1 :=
      tryCandidates_all_fail E domain _ _ f1 hall
    have hcache : (fetchFaviconForDomain E f domain).cache = f.cache := by
      rw [hrun, afterFailures_cache E _ _ f1 hall, discoverFaviconFromHTML_cache]
    refine ⟨fun key _ => by rw [hcache], fun h => by rw [hcache]; exact h,
      Or.inl ⟨f1, hall, hcache⟩⟩
  · have hrun : (fetchFaviconForDomain E f domain).cache =
        { cache := f.cache.cache.set domain (fetchFaviconDataURL E f1 c).1 } := by
      unfold fetchFaviconForDomain
      rw [hcand, tryCandidates_first_success E domain c post pre _ f1 hpre hok,
        fetchFaviconDataURL_cache, afterFailures_cache E pre _ f1 hpre,
        discoverFaviconFromHTML_cache]
    have hself : (fetchFaviconForDomain E f domain).cache.cache.lookup domain =
        some (fetchFaviconDataURL E f1 c).1 := by
      rw [hrun]
      exact GoMap.lookup_set_self _ _ _
    refine ⟨fun key hkey => ?_, fun _ => by rw [hself]; rfl,
      Or.inr ⟨pre, c, post, f1, hcand, hpre, hok, hself⟩⟩
    rw [hrun]
    exact GoMap.lookup_set_ne _ _ _ _ hkey

/-- C6 (amended), on the demo server: after a second run the domain still has an entry. -/
theorem fetchFaviconForDomain_rerun_cache_witness :
    ((fetchFaviconForDomain demoEnv
        (fetchFaviconForDomain demoEnv (NewFaviconFetcher 0) "example.com")
        "example.com").cache.cache.lookup "example.com").isSome = true :=
  (fetchFaviconForDomain_rerun_cache demoEnv
    (fetchFaviconForDomain demoEnv (NewFaviconFetcher 0) "example.com")
    "example.com").2.1 (by decide)

/-! ## Feed discovery: claims -/

theorem feedAttrs_eq : ∀ (attr : List Attribute) (rel typ href : String),
    feedAttrs attr (rel, typ, href) =
      ((lastAttr "rel" attr).getD rel, (lastAttr "type" attr).getD typ,
        (lastAttr "href" attr).getD href)
  | [], rel, typ, href => by simp [feedAttrs, lastAttr]
  | a :: rest, rel, typ, href => by
    unfold feedAttrs
    by_cases h1 : a.Key = "rel"
    · rw [if_pos h1, feedAttrs_eq rest]
      simp only [lastAttr, h1]
      cases lastAttr "rel" rest <;> cases lastAttr "type" rest <;>
        cases lastAttr "href" rest <;> simp
    · rw [if_neg h1]
      by_cases h2 : a.Key = "type"
      · rw [if_pos h2, feedAttrs_eq rest]
        simp only [lastAttr, h2]
        cases lastAttr "rel" rest <;> cases lastAttr "type" rest <;>
          cases lastAttr "href" rest <;> simp
      · rw [if_neg h2]
        by_cases h3 : a.Key = "href"
        · rw [if_pos h3, feedAttrs_eq rest]
          simp only [lastAttr, h3]
          cases lastAttr "rel" rest <;> cases lastAttr "type" rest <;>
            cases lastAttr "href" rest <;> simp
        · rw [if_neg h3, feedAttrs_eq rest]
          simp only [lastAttr, h1, h2, h3]
          cases lastAttr "rel" rest <;> cases lastAttr "type" rest <;>
            cases lastAttr "href" rest <;> simp

theorem visitFeedLink_eq {URL σ : Type} (E : Env URL σ) (base : URL) (attr : List Attribute)
    (firstChild : NodePtr) (feeds : List String) :
    visitFeedLink E base attr feeds =
      feeds ++ (feedLink E base (.mk .ElementNode "link" attr firstChild)).toList := by
  unfold visitFeedLink
  simp only [feedLink]
  rw [feedAttrs_eq]
  simp only [true_and]
  by_cases h : (lastAttr "rel" attr).getD "" = "alternate" ∧
      ((lastAttr "type" attr).getD "" = "application/rss+xml" ∨
        (lastAttr "type" attr).getD "" = "application/atom+xml")
  · rw [if_pos h, if_pos h]
    cases E.parseRef base ((lastAttr "href" attr).getD "") with
    | none => simp
    | some u => simp
  · rw [if_neg h, if_neg h]
    simp

mutual
theorem feedWalk_eq {URL σ : Type} (E : Env URL σ) (base : URL) :
    ∀ (n : Node) (feeds : List String),
      feedWalk E base n feeds = feeds ++ (documentOrder n).filterMap (feedLink E base)
  | .mk type data attr firstChild, feeds => by
    rw [feedWalk, documentOrder, feedWalkChildren_eq E base firstChild, List.filterMap_cons]
    by_cases h : type = NodeType.ElementNode ∧ data = "link"
    · rw [if_pos h]
      obtain ⟨h1, h2⟩ := h
      subst h1
      subst h2
      rw [visitFeedLink_eq E base attr firstChild feeds]
      cases feedLink E base (.mk .ElementNode "link" attr firstChild) <;> simp
    · rw [if_neg h]
      have hn : feedLink E base (.mk type data attr firstChild) = none := by
        simp only [feedLink]
        rw [if_neg]
        intro hc
        exact h ⟨hc.1, hc.2.1⟩
      rw [hn]
theorem feedWalkChildren_eq {URL σ : Type} (E : Env URL σ) (base : URL) :
    ∀ (p : NodePtr) (feeds : List String),
      feedWalkChildren E base p feeds =
        feeds ++ (documentOrderFrom p).filterMap (feedLink E base)
  | .nil, feeds => by simp [feedWalkChildren, documentOrderFrom]
  | .node n nextSibling, feeds => by
    rw [feedWalkChildren, documentOrderFrom, List.filterMap_append,
      feedWalk_eq E base n, feedWalkChildren_eq E base nextSibling, List.append_assoc]
end

/-- C11: `discoverFeeds` returns, in depth-first document order and without reordering,
the hrefs resolved against the base of exactly the `link` elements whose `rel` equals
`alternate` and whose `type` is `application/rss+xml` or `application/atom+xml` (a link
whose href does not resolve contributes nothing).  For the page announcing
`/feed.xml` as RSS: whenever the URL library resolves `/feed.xml` against the base to
`https://example.com/feed.xml`, as it does for the base `https://example.com/blog`, the
result is that single URL. -/
theorem discoverFeeds_document_order {URL σ : Type} (E : Env URL σ) (doc : Node) (base : URL) :
    discoverFeeds E doc base = (documentOrder doc).filterMap (feedLink E base) ∧
      (∀ r : URL, E.parseRef base "/feed.xml" = some r →
        E.urlString r = "https://example.com/feed.xml" →
        discoverFeeds E feedDoc base = ["https://example.com/feed.xml"]) := by
  have heq : ∀ d : Node,
      discoverFeeds E d base = (documentOrder d).filterMap (feedLink E base) := by
    intro d
    unfold discoverFeeds
    rw [feedWalk_eq, List.nil_append]
  refine ⟨heq doc, ?_⟩
  intro r hr hs
  rw [heq feedDoc]
  simp [feedDoc, documentOrder, documentOrderFrom, feedLink, lastAttr, hr, hs]

/-- C11, on the toy URL library: base `https://example.com/blog`, one feed found. -/
theorem discoverFeeds_document_order_witness :
    discoverFeeds demoEnv feedDoc "https://example.com/blog" =
      ["https://example.com/feed.xml"] :=
  (discoverFeeds_document_order demoEnv feedDoc "https://example.com/blog").2
    "https://example.com/feed.xml" (by decide) (by decide)

/-! ## The cache invariant -/

theorem wellFormed_dataURL (ct payload : String) :
    WellFormedDataURL ("data:" ++ ct ++ ";base64," ++ payload) := by
  refine ⟨dataURL_ne_empty ct payload, ⟨ct ++ ";base64," ++ payload, ?_⟩,
    ⟨"data:" ++ ct, payload, rfl⟩⟩
  simp only [String.append_assoc]

theorem fetchFaviconDataURL_wellFormed {URL σ : Type} (E : Env URL σ) (f : FaviconFetcher σ)
    (url : String) (hok : (fetchFaviconDataURL E f url).1 ≠ "") :
    WellFormedDataURL (fetchFaviconDataURL E f url).1 := by
  obtain ⟨resp, _, hrun⟩ := fetchFaviconDataURL_response_of_ok E f url hok
  have hne : dataURLOfResponse url resp ≠ "" := by
    rw [← hrun]
    exact hok
  have hcond := mt (dataURLOfResponse_eq_empty_iff url resp).mpr hne
  have hst : ¬ (resp.StatusCode < 200 ∨ 299 < resp.StatusCode) := fun h => hcond (Or.inl h)
  have hform := dataURLOfResponse_accepted url resp (by omega) (by omega)
    (not_not.mp fun h => hcond (Or.inr (Or.inl h)))
    (by
      cases h : (readAllLimit resp.body maxFaviconSize).2
      · rfl
      · exact absurd (Or.inr (Or.inr (Or.inl h))) hcond)
    (fun h => hcond (Or.inr (Or.inr (Or.inr h))))
  rw [hrun, hform]
  exact wellFormed_dataURL _ _

theorem fetchFaviconForDomain_cache_cases {URL σ : Type} (E : Env URL σ)
    (f : FaviconFetcher σ) (domain : String) :
    (fetchFaviconForDomain E f domain).cache = f.cache ∨
      ∃ v, WellFormedDataURL v ∧
        (fetchFaviconForDomain E f domain).cache = { cache := f.cache.cache.set domain v } := by
  rcases tryCandidates_cases E (faviconCandidates E f domain)
      (discoverFaviconFromHTML E f ("https://" ++ domain)).2 with
    ⟨f1, hall⟩ | ⟨pre, c, post, f1, hcand, hpre, hok⟩
  · left
    have hrun : fetchFaviconForDomain E f domain = f1 :=
      tryCandidates_all_fail E domain _ _ f1 hall
    rw [hrun, afterFailures_cache E _ _ f1 hall, discoverFaviconFromHTML_cache]
  · right
    refine ⟨(fetchFaviconDataURL E f1 c).1, fetchFaviconDataURL_wellFormed E f1 c hok, ?_⟩
    unfold fetchFaviconForDomain
    rw [hcand, tryCandidates_first_success E domain c post pre _ f1 hpre hok,
      fetchFaviconDataURL_cache, afterFailures_cache E pre _ f1 hpre,
      discoverFaviconFromHTML_cache]

theorem fetchFaviconForDomain_other_keys {URL σ : Type} (E : Env URL σ)
    (f : FaviconFetcher σ) (domain key : String) (hkey : key ≠ domain) :
    (fetchFaviconForDomain E f domain).cache.cache.lookup key = f.cache.cache.lookup key := by
  rcases fetchFaviconForDomain_cache_cases E f domain with h | ⟨v, _, h⟩
  · rw [h]
  · rw [h]
    exact GoMap.lookup_set_ne _ _ _ _ hkey

theorem fetchFaviconForDomain_cacheInvariant {URL σ : Type} (E : Env URL σ)
    (f : FaviconFetcher σ) (domain : String) (hinv : CacheInvariant f.cache) :
    CacheInvariant (fetchFaviconForDomain E f domain).cache := by
  rcases fetchFaviconForDomain_cache_cases E f domain with h | ⟨v, hv, h⟩
  · rw [h]
    exact hinv
  · rw [h]
    intro key w hw
    by_cases hkey : key = domain
    · subst hkey
      have hself : (f.cache.cache.set key v).lookup key = some v :=
        GoMap.lookup_set_self _ _ _
      have hw2 : (f.cache.cache.set key v).lookup key = some w := hw
      rw [hself] at hw2
      cases hw2
      exact hv
    · have hne : (f.cache.cache.set domain v).lookup key = f.cache.cache.lookup key :=
        GoMap.lookup_set_ne _ _ _ _ hkey
      have hw2 : (f.cache.cache.set domain v).lookup key = some w := hw
      rw [hne] at hw2
      exact hinv key w hw2

theorem fetchSequence_cacheInvariant {URL σ : Type} (E : Env URL σ) :
    ∀ (domains : List String) (f : FaviconFetcher σ),
      CacheInvariant f.cache → CacheInvariant (fetchSequence E domains f).cache
  | [], _, h => h
  | d :: ds, f, h =>
    fetchSequence_cacheInvariant E ds _ (fetchFaviconForDomain_cacheInvariant E f d h)

/-- C13: after any sequence of `fetchFaviconForDomain` calls on a fetcher made by
`NewFaviconFetcher`, every value stored in the cache is non-empty, begins with `data:`
and contains `;base64,`; hence `GetFaviconDataURL` returns the empty string for a
domain exactly when the domain has no entry; and one more call for a domain leaves the
entry of every other domain as it was. -/
theorem faviconCache_invariant {URL σ : Type} (E : Env URL σ) (s : σ) (domains : List String) :
    (∀ d v, (fetchSequence E domains (NewFaviconFetcher s)).cache.cache.lookup d = some v →
        v ≠ "" ∧ StartsWith v "data:" ∧ HasSubstring v ";base64,") ∧
      (∀ d, GetFaviconDataURL (fetchSequence E domains (NewFaviconFetcher s)) d = "" ↔
        (fetchSequence E domains (NewFaviconFetcher s)).cache.cache.lookup d = none) ∧
      (∀ d key, key ≠ d →
        (fetchFaviconForDomain E (fetchSequence E domains (NewFaviconFetcher s)) d).cache.cache.lookup
            key =
          (fetchSequence E domains (NewFaviconFetcher s)).cache.cache.lookup key) := by
  have hinv : CacheInvariant (fetchSequence E domains (NewFaviconFetcher s)).cache :=
    fetchSequence_cacheInvariant E domains _ (by
      intro key v h
      cases h)
  refine ⟨hinv, ?_, fun d key hkey => fetchFaviconForDomain_other_keys E _ d key hkey⟩
  intro d
  unfold GetFaviconDataURL
  cases hl : (fetchSequence E domains (NewFaviconFetcher s)).cache.cache.lookup d with
  | none => simp
  | some v =>
    have hv := (hinv d v hl).1
    simp [hv]

/-- C13, on the demo server: after calls for `example.com` and `example.org` the value
cached for `example.com` is a well-formed data URL. -/
theorem faviconCache_invariant_witness :
    (fetchSequence demoEnv ["example.com", "example.org"]
        (NewFaviconFetcher 0)).cache.cache.lookup "example.com" =
        some "data:image/x-icon;base64,Aw==" ∧
      StartsWith "data:image/x-icon;base64,Aw==" "data:" ∧
      HasSubstring "data:image/x-icon;base64,Aw==" ";base64," :=
  ⟨by decide,
    ((faviconCache_invariant demoEnv 0 ["example.com", "example.org"]).1 "example.com"
      "data:image/x-icon;base64,Aw==" (by decide)).2⟩

end Vore
